import Mathlib

/-
Verification of the response-normalization pipeline of FootPrinto
(src/lib/gemini.ts).  The pipeline takes the untrusted text produced by an
external model, parses it as JSON, and repairs/clamps/derives the fields of
the resulting record.

Shallow embedding conventions:
  * JavaScript numbers are modelled as exact rationals extended with NaN and
    the two infinities (`JsNum`).  Floating-point rounding and signed zero are
    not modelled; arithmetic on the extended rationals follows the IEEE rules
    for NaN/infinity propagation used by JS (`0 * Infinity = NaN`, etc.).
  * JavaScript values reachable from `JSON.parse` plus `undefined` are
    modelled by the inductive type `Js`.  Property access on `undefined`/
    `null` throws (modelled by `Except.error`); property access on other
    primitives yields `undefined` (the property names read by this pipeline
    are never built-ins such as `length`).
  * `Number(-)` coercion of arrays/objects goes through JS `ToPrimitive`;
    it is modelled as NaN except for `[]` and one-element arrays (the only
    cases with simple behaviour); no claim exercises composite coercion.
  * `new Date()` results are parameters (`now`, `currentYear`) so the
    functions stay pure.
-/

namespace Gemini

/- Batteries marks the rational-number operations `@[irreducible]`; the
closed-form evaluation of the embedded pipeline on concrete inputs needs
them to reduce. -/
attribute [local semireducible] Rat.add Rat.mul Rat.inv Rat.sub Rat.ofScientific

/-- A JavaScript number: an exact rational, NaN, or an infinity. -/
inductive JsNum where
  | nan
  | posInf
  | negInf
  | fin (q : ℚ)
deriving DecidableEq, Repr

/-- JS addition on extended numbers. -/
def jsAdd : JsNum → JsNum → JsNum
  | .nan, _ => .nan
  | _, .nan => .nan
  | .posInf, .negInf => .nan
  | .negInf, .posInf => .nan
  | .posInf, _ => .posInf
  | _, .posInf => .posInf
  | .negInf, _ => .negInf
  | _, .negInf => .negInf
  | .fin a, .fin b => .fin (a + b)

/-- JS multiplication on extended numbers (`0 * Infinity = NaN`). -/
def jsMul : JsNum → JsNum → JsNum
  | .nan, _ => .nan
  | _, .nan => .nan
  | .posInf, .posInf => .posInf
  | .posInf, .negInf => .negInf
  | .negInf, .posInf => .negInf
  | .negInf, .negInf => .posInf
  | .posInf, .fin q => if 0 < q then .posInf else if q < 0 then .negInf else .nan
  | .fin q, .posInf => if 0 < q then .posInf else if q < 0 then .negInf else .nan
  | .negInf, .fin q => if 0 < q then .negInf else if q < 0 then .posInf else .nan
  | .fin q, .negInf => if 0 < q then .negInf else if q < 0 then .posInf else .nan
  | .fin a, .fin b => .fin (a * b)

/-- JS division on extended numbers (division by zero gives an infinity;
signed zero is not modelled, so the positive sign is chosen). -/
def jsDiv : JsNum → JsNum → JsNum
  | .nan, _ => .nan
  | _, .nan => .nan
  | .posInf, .posInf => .nan
  | .posInf, .negInf => .nan
  | .negInf, .posInf => .nan
  | .negInf, .negInf => .nan
  | .posInf, .fin q => if 0 ≤ q then .posInf else .negInf
  | .negInf, .fin q => if 0 ≤ q then .negInf else .posInf
  | .fin _, .posInf => .fin 0
  | .fin _, .negInf => .fin 0
  | .fin a, .fin b =>
    if b = 0 then (if a = 0 then .nan else if 0 < a then .posInf else .negInf)
    else .fin (a / b)

/-- `Math.max` on two arguments: NaN-absorbing. -/
def jsMax : JsNum → JsNum → JsNum
  | .nan, _ => .nan
  | _, .nan => .nan
  | .posInf, _ => .posInf
  | _, .posInf => .posInf
  | .negInf, b => b
  | a, .negInf => a
  | .fin a, .fin b => .fin (max a b)

/-- `Math.min` on two arguments: NaN-absorbing. -/
def jsMin : JsNum → JsNum → JsNum
  | .nan, _ => .nan
  | _, .nan => .nan
  | .negInf, _ => .negInf
  | _, .negInf => .negInf
  | .posInf, b => b
  | a, .posInf => a
  | .fin a, .fin b => .fin (min a b)

/-- JS `<=` comparison: any comparison with NaN is false. -/
def jsLe : JsNum → JsNum → Bool
  | .nan, _ => false
  | _, .nan => false
  | .negInf, _ => true
  | _, .posInf => true
  | .posInf, _ => false
  | _, .negInf => false
  | .fin a, .fin b => a ≤ b

/-- `Math.ceil` on extended numbers (using the executable `Rat.ceil`, which
agrees with the mathematical ceiling by `ratCeil_eq_ceil` below). -/
def jsCeil : JsNum → JsNum
  | .nan => .nan
  | .posInf => .posInf
  | .negInf => .negInf
  | .fin q => .fin ((Rat.ceil q : ℤ) : ℚ)

/-- A JavaScript value as reachable from `JSON.parse`, plus `undefined`. -/
inductive Js where
  | undef
  | null
  | bool (b : Bool)
  | num (n : JsNum)
  | str (s : String)
  | arr (xs : List Js)
  | obj (fields : List (String × Js))
deriving Repr

/-- JS truthiness. -/
def truthy : Js → Bool
  | .undef => false
  | .null => false
  | .bool b => b
  | .num .nan => false
  | .num (.fin q) => q ≠ 0
  | .num _ => true
  | .str s => s ≠ ""
  | .arr _ => true
  | .obj _ => true

/-- `a || b` in JS: the left operand if truthy, otherwise the right one. -/
def jsOr (a b : Js) : Js := if truthy a then a else b

/-- Strict equality (`===`) of a JS value with a string literal. -/
def strictEqStr (v : Js) (s : String) : Bool :=
  match v with
  | .str t => t = s
  | _ => false

/-- Whether a value is `undefined` or `null` (property access throws). -/
def jsNullish : Js → Bool
  | .undef => true
  | .null => true
  | _ => false

/-- Property access `v.k`.  Throws a TypeError on `undefined`/`null`; missing
keys and access on other primitives yield `undefined`. -/
def getProp : Js → String → Except String Js
  | .undef, k => .error ("TypeError: cannot read properties of undefined, reading " ++ k)
  | .null, k => .error ("TypeError: cannot read properties of null, reading " ++ k)
  | .obj fields, k => .ok ((fields.lookup k).getD .undef)
  | _, _ => .ok (.undef)

/-! ### String-to-number coercion (model of the JS `Number(-)` builtin) -/

/-- The whitespace characters stripped by JS before numeric conversion
(modelled as the four common ones). -/
def wsChar (c : Char) : Bool :=
  c = ' ' || c = '\t' || c = '\n' || c = '\r'

/-- Trim whitespace from both ends of a character list. -/
def jsTrim (cs : List Char) : List Char :=
  ((cs.dropWhile wsChar).reverse.dropWhile wsChar).reverse

/-- Numeric value of a digit list, most significant first. -/
def digitsToNat (ds : List Char) : Nat :=
  ds.foldl (fun a c => a * 10 + (c.toNat - 48)) 0

/-- Rational value of `ip.fp` where both parts are digit lists. -/
def mkDecimal (ip fp : List Char) : ℚ :=
  (digitsToNat ip : ℚ) + (digitsToNat fp : ℚ) / (10 : ℚ) ^ fp.length

/-- Parse an unsigned decimal mantissa (digits, optional fraction); at least
one digit is required overall.  Returns the value and the rest. -/
def parseUnsignedDec (cs : List Char) : Option (ℚ × List Char) :=
  let ip := cs.takeWhile Char.isDigit
  let r1 := cs.dropWhile Char.isDigit
  match r1 with
  | '.' :: r2 =>
    let fp := r2.takeWhile Char.isDigit
    let r3 := r2.dropWhile Char.isDigit
    if ip.length + fp.length = 0 then none else some (mkDecimal ip fp, r3)
  | _ => if ip.length = 0 then none else some ((digitsToNat ip : ℚ), r1)

/-- Parse an optional exponent part and require the input to be exhausted. -/
def applyExponent (q : ℚ) (cs : List Char) : Option ℚ :=
  match cs with
  | [] => some q
  | e :: r =>
    if e = 'e' || e = 'E' then
      let (eneg, r1) : Bool × List Char :=
        match r with
        | c :: r2 => if c = '-' then (true, r2) else if c = '+' then (false, r2) else (false, r)
        | [] => (false, r)
      let ds := r1.takeWhile Char.isDigit
      let r2 := r1.dropWhile Char.isDigit
      if ds.length = 0 || r2 ≠ [] then none
      else
        let k := digitsToNat ds
        some (if eneg then q / (10 : ℚ) ^ k else q * (10 : ℚ) ^ k)
    else none

/-- Model of the JS `Number(string)` coercion: trimmed, empty string is 0,
`Infinity` literals are recognised, otherwise a signed decimal with optional
exponent; anything else is NaN.  Hex/octal/binary literals are modelled as
NaN (no claim exercises them). -/
def strToNumber (s : String) : JsNum :=
  let cs := jsTrim s.data
  match cs with
  | [] => .fin 0
  | _ =>
    let (neg, cs1) : Bool × List Char :=
      match cs with
      | c :: r => if c = '-' then (true, r) else if c = '+' then (false, r) else (false, cs)
      | [] => (false, cs)
    if cs1 = ['I', 'n', 'f', 'i', 'n', 'i', 't', 'y'] then
      if neg then .negInf else .posInf
    else
      match parseUnsignedDec cs1 with
      | none => .nan
      | some (q, rest) =>
        match applyExponent q rest with
        | some v => .fin (if neg then -v else v)
        | none => .nan

/-- Model of the JS `Number(-)` coercion on arbitrary values. -/
def toNumber : Js → JsNum
  | .undef => .nan
  | .null => .fin 0
  | .bool b => .fin (if b then 1 else 0)
  | .num n => n
  | .str s => strToNumber s
  | .arr [] => .fin 0
  | .arr [x] => toNumber x
  | .arr (_ :: _ :: _) => .nan
  | .obj _ => .nan

/-! ### JSON parsing (model of the JS `JSON.parse` builtin)

A recursive-descent parser over the character list, using a fuel argument
for termination; the fuel supplied by `parseJson` exceeds the nesting depth
of any input, so it never runs out. Lone `\u` surrogate halves decode to the
default character (Lean `Char` holds scalar values only); no claim exercises
them. -/

/-- The opening brace character, kept out of literals. -/
def braceOpen : Char := Char.ofNat 123

/-- The closing brace character, kept out of literals. -/
def braceClose : Char := Char.ofNat 125

/-- The double-quote character. -/
def quoteChar : Char := Char.ofNat 34

/-- JSON whitespace (space, tab, line feed, carriage return). -/
def skipWs (cs : List Char) : List Char := cs.dropWhile wsChar

/-- Value of a hexadecimal digit. -/
def hexVal (c : Char) : Option Nat :=
  if c.isDigit then some (c.toNat - 48)
  else if 'a' ≤ c && c ≤ 'f' then some (c.toNat - 87)
  else if 'A' ≤ c && c ≤ 'F' then some (c.toNat - 55)
  else none

/-- Parse the body of a JSON string after the opening quote: returns the
decoded characters and the rest of the input after the closing quote. -/
def pStringChars : Nat → List Char → Option (List Char × List Char)
  | 0, _ => none
  | _, [] => none
  | fuel + 1, c :: rest =>
    if c = quoteChar then some ([], rest)
    else if c.toNat < 32 then none
    else if c = '\\' then
      match rest with
      | [] => none
      | e :: r2 =>
        let cont (d : Char) (r : List Char) : Option (List Char × List Char) :=
          (pStringChars fuel r).map (fun p => (d :: p.1, p.2))
        if e = quoteChar then cont quoteChar r2
        else if e = '\\' then cont '\\' r2
        else if e = '/' then cont '/' r2
        else if e = 'b' then cont (Char.ofNat 8) r2
        else if e = 'f' then cont (Char.ofNat 12) r2
        else if e = 'n' then cont (Char.ofNat 10) r2
        else if e = 'r' then cont (Char.ofNat 13) r2
        else if e = 't' then cont (Char.ofNat 9) r2
        else if e = 'u' then
          match r2 with
          | h1 :: h2 :: h3 :: h4 :: r3 =>
            match hexVal h1, hexVal h2, hexVal h3, hexVal h4 with
            | some a, some b, some c2, some d2 =>
              cont (Char.ofNat (((a * 16 + b) * 16 + c2) * 16 + d2)) r3
            | _, _, _, _ => none
          | _ => none
        else none
    else (pStringChars fuel rest).map (fun p => (c :: p.1, p.2))

/-- Parse a JSON number (strict grammar: optional minus, no leading zeros,
optional fraction with at least one digit, optional exponent). -/
def pNumber (cs : List Char) : Option (ℚ × List Char) :=
  let (neg, cs1) : Bool × List Char :=
    match cs with
    | c :: r => if c = '-' then (true, r) else (false, cs)
    | [] => (false, cs)
  match cs1 with
  | [] => none
  | c :: _ =>
    if ¬ c.isDigit then none
    else
      let ids := cs1.takeWhile Char.isDigit
      let cs2 := cs1.dropWhile Char.isDigit
      if ids.length > 1 && ids.head? = some '0' then none
      else
        let intVal : ℚ := (digitsToNat ids : ℚ)
        let contFrac : Option (ℚ × List Char) :=
          match cs2 with
          | '.' :: r2 =>
            let fp := r2.takeWhile Char.isDigit
            let r3 := r2.dropWhile Char.isDigit
            if fp.length = 0 then none else some (intVal + (digitsToNat fp : ℚ) / (10 : ℚ) ^ fp.length, r3)
          | _ => some (intVal, cs2)
        match contFrac with
        | none => none
        | some (q, cs3) =>
          let contExp : Option (ℚ × List Char) :=
            match cs3 with
            | e :: r =>
              if e = 'e' || e = 'E' then
                let (eneg, r1) : Bool × List Char :=
                  match r with
                  | d :: r2 => if d = '-' then (true, r2) else if d = '+' then (false, r2) else (false, r)
                  | [] => (false, r)
                let ds := r1.takeWhile Char.isDigit
                let r2 := r1.dropWhile Char.isDigit
                if ds.length = 0 then none
                else
                  let k := digitsToNat ds
                  some (if eneg then q / (10 : ℚ) ^ k else q * (10 : ℚ) ^ k, r2)
              else some (q, cs3)
            | [] => some (q, cs3)
          match contExp with
          | none => none
          | some (v, cs4) => some (if neg then -v else v, cs4)

mutual

/-- Parse one JSON value (leading whitespace allowed). -/
def pValue : Nat → List Char → Option (Js × List Char)
  | 0, _ => none
  | fuel + 1, cs =>
    match skipWs cs with
    | [] => none
    | c :: rest =>
      if c = quoteChar then
        (pStringChars (rest.length + 1) rest).map (fun p => (Js.str (String.mk p.1), p.2))
      else if c = braceOpen then
        match skipWs rest with
        | d :: r2 => if d = braceClose then some (Js.obj [], r2) else pMembers fuel (skipWs rest)
        | [] => none
      else if c = '[' then
        match skipWs rest with
        | d :: r2 => if d = ']' then some (Js.arr [], r2) else pElements fuel (skipWs rest)
        | [] => none
      else if List.isPrefixOf ['t', 'r', 'u', 'e'] (c :: rest) then
        some (Js.bool true, (c :: rest).drop 4)
      else if List.isPrefixOf ['f', 'a', 'l', 's', 'e'] (c :: rest) then
        some (Js.bool false, (c :: rest).drop 5)
      else if List.isPrefixOf ['n', 'u', 'l', 'l'] (c :: rest) then
        some (Js.null, (c :: rest).drop 4)
      else
        (pNumber (c :: rest)).map (fun p => (Js.num (.fin p.1), p.2))

/-- Parse the members of an object from the first key through the closing
brace.  A key that occurs again later is dropped (`JSON.parse` keeps the last
occurrence). -/
def pMembers : Nat → List Char → Option (Js × List Char)
  | 0, _ => none
  | fuel + 1, cs =>
    match skipWs cs with
    | [] => none
    | c :: rest =>
      if c = quoteChar then
        match pStringChars (rest.length + 1) rest with
        | none => none
        | some (k, r2) =>
          match skipWs r2 with
          | ':' :: r3 =>
            match pValue fuel r3 with
            | none => none
            | some (v, r4) =>
              match skipWs r4 with
              | ',' :: r5 =>
                match pMembers fuel r5 with
                | some (Js.obj fs, r6) =>
                  let key := String.mk k
                  some (Js.obj (if (fs.lookup key).isSome then fs else (key, v) :: fs), r6)
                | _ => none
              | d :: r5 =>
                if d = braceClose then some (Js.obj [(String.mk k, v)], r5) else none
              | [] => none
          | _ => none
      else none

/-- Parse the elements of an array from the first element through the
closing bracket. -/
def pElements : Nat → List Char → Option (Js × List Char)
  | 0, _ => none
  | fuel + 1, cs =>
    match pValue fuel cs with
    | none => none
    | some (v, r1) =>
      match skipWs r1 with
      | ',' :: r2 =>
        match pElements fuel r2 with
        | some (Js.arr xs, r3) => some (Js.arr (v :: xs), r3)
        | _ => none
      | ']' :: r2 => some (Js.arr [v], r2)
      | _ => none

end

/-- Model of `JSON.parse`: parse one value and require only whitespace to
remain. -/
def parseJson (s : String) : Option Js :=
  match pValue (s.data.length + 1) s.data with
  | some (v, rest) => if skipWs rest = [] then some v else none
  | none => none

/-- The suffix of a list starting at the first occurrence of `c`. -/
def dropUntil (c : Char) : List Char → Option (List Char)
  | [] => none
  | x :: r => if x = c then some (x :: r) else dropUntil c r

/-- Model of `text.match(/\x7b[\s\S]*\x7d/)`: the substring from the first
opening brace to the last closing brace, when the latter comes after the
former. -/
def braceExtract (s : String) : Option String :=
  (dropUntil braceOpen s.data).bind fun t =>
    (dropUntil braceClose t.reverse).map fun u => String.mk u.reverse

/-! ### Environmental constants (src/lib/gemini.ts lines 6-7) -/

def TREE_CO2_ABSORPTION_PER_YEAR : ℚ := 22

def AVERAGE_TREE_LIFESPAN : ℚ := 40

/-! ### Validated data model (src/lib/gemini.ts lines 10-53)

Fields that the validators pass through untouched keep the dynamic type
`Js`; fields that are always produced by a numeric validator have type
`JsNum`; fields that are always synthesized strings have type `String`. -/

/-- A validated citation record (interface `Source`).  The `url` field holds
the JS value `validateUrl` kept — a string, or an array that survived the
URL-constructor coercion. -/
structure Source where
  name : Js
  reliability_score : JsNum
  year_published : Js
  url : Option Js
  doi : Js
deriving Repr

/-- A validated emissions record (interface `CarbonFootprint`). -/
structure CarbonFootprint where
  lifetime_total_kg_co2 : JsNum
  manufacturing_kg_co2 : JsNum
  daily_operation_kg_co2 : JsNum
  unit : String
  confidence_score : JsNum
  calculation_basis : String
  sources : List Source
  trees_required : JsNum
deriving Repr

/-- Validated per-object metadata (interface `ObjectMetadata`). -/
structure ObjectMetadata where
  assumed_lifespan_years : JsNum
  usage_assumptions : Js
  data_source : Js
  geographical_region : Js
  methodology_source : Option Source
deriving Repr

/-- One detected object (interface `DetectedObject`). -/
structure DetectedObject where
  name : Js
  carbon_footprint : CarbonFootprint
  metadata : ObjectMetadata
deriving Repr

/-- Run metadata of an analysis (the `analysis_metadata` record). -/
structure AnalysisMetadata where
  timestamp : String
  image_quality : Js
  number_of_objects_detected : Nat
  default_region : Js
  model_version : Js
  data_sources : List Source
deriving Repr

/-- The validated result (interface `AnalysisResult`). -/
structure AnalysisResult where
  objects : List DetectedObject
  analysis_metadata : AnalysisMetadata
deriving Repr

/-! ### Rendering numbers into template strings -/

/-- Decimal string of a rational whose denominator divides a power of ten
(every value arising from parsed JSON has this form); other rationals fall
back to a fraction rendering, which no claim exercises. -/
def ratToString (q : ℚ) : String :=
  if q.den = 1 then toString q.num
  else
    match (List.range 41).find? (fun k => 10 ^ k % q.den = 0) with
    | some k =>
      let m := 10 ^ k / q.den
      let n := q.num.natAbs * m
      let s := Nat.repr n
      let s := if s.length ≤ k then String.mk (List.replicate (k + 1 - s.length) '0') ++ s else s
      (if q.num < 0 then "-" else "") ++ s.take (s.length - k) ++ "." ++ s.drop (s.length - k)
    | none => toString q.num ++ " / " ++ toString q.den

/-- Model of JS number-to-string conversion inside template literals. -/
def jsNumToString : JsNum → String
  | .nan => "NaN"
  | .posInf => "Infinity"
  | .negInf => "-Infinity"
  | .fin q => ratToString q

/-! ### Utility functions (src/lib/gemini.ts lines 56-97) -/

/-- `validateNumber(value, min, max)` (lines 56-60): coerce to a number,
fall back to `lo` on NaN, then clamp to `[lo, hi]`.  The source's default
arguments (`min = 0`, `max = Infinity`) are spelled out at call sites. -/
def validateNumber (value : Js) (lo : ℚ) (hi : JsNum) : JsNum :=
  let num := toNumber value
  if num = JsNum.nan then .fin lo
  else jsMin hi (jsMax (.fin lo) num)

/-- `calculateLifetimeEmissions` (lines 62-70):
`manufacturing + daily_operation * 365 * lifespan`. -/
def calculateLifetimeEmissions (manufacturing_kg_co2 daily_operation_kg_co2 lifespan_years : JsNum) : JsNum :=
  let days_in_year : JsNum := .fin 365
  let lifetime_operational := jsMul (jsMul daily_operation_kg_co2 days_in_year) lifespan_years
  jsAdd manufacturing_kg_co2 lifetime_operational

/-- `calculateTreesRequired` (lines 72-77). -/
def calculateTreesRequired (lifetime_total_kg_co2 : JsNum) : JsNum :=
  if jsLe lifetime_total_kg_co2 (.fin 0) then .fin 1
  else
    let totalAbsorptionPerTree : JsNum := .fin (TREE_CO2_ABSORPTION_PER_YEAR * AVERAGE_TREE_LIFESPAN)
    let treesNeeded := jsDiv lifetime_total_kg_co2 totalAbsorptionPerTree
    jsMax (.fin 1) (jsCeil treesNeeded)

/-- Split a character list at the first colon. -/
def splitAtColon : List Char → Option (List Char × List Char)
  | [] => none
  | x :: r => if x = ':' then some ([], r) else (splitAtColon r).map (fun p => (x :: p.1, p.2))

/-- Schemes the WHATWG URL parser treats as special. -/
def specialScheme (s : String) : Bool :=
  s = "http" || s = "https" || s = "ws" || s = "wss" || s = "ftp"

/-- Model of the WHATWG `new URL(-)` constructor succeeding, simplified: a
syntactic scheme followed by a colon; special schemes additionally need a
nonempty, space-free host. -/
def isValidUrl (s : String) : Bool :=
  match splitAtColon s.data with
  | none => false
  | some (scheme, rest) =>
    (match scheme with
     | [] => false
     | c :: r => c.isAlpha && r.all (fun d => d.isAlphanum || d = '+' || d = '-' || d = '.')) &&
    (let low := String.mk (scheme.map Char.toLower)
     if specialScheme low then
       let host := (rest.dropWhile (fun c => c = '/')).takeWhile (fun c => c ≠ '/' && c ≠ '?' && c ≠ '#')
       host.length != 0 && host.all (fun c => c ≠ ' ')
     else true)

/-- Whether `needle` occurs inside `hay` (JS `String.prototype.includes`). -/
def listHasInfix (needle : List Char) : List Char → Bool
  | [] => needle.isEmpty
  | c :: r => List.isPrefixOf needle (c :: r) || listHasInfix needle r

/-- JS `hay.includes(needle)`. -/
def strIncludes (hay needle : String) : Bool := listHasInfix needle.data hay.data

mutual

/-- JS ToString of one array element inside `Array.prototype.join`:
`undefined` and `null` render as the empty string there. -/
def jsJoinElemString : Js → String
  | .undef => ""
  | .null => ""
  | .bool b => if b then "true" else "false"
  | .num n => jsNumToString n
  | .str s => s
  | .arr xs => jsJoinList xs
  | .obj _ => "[object Object]"

/-- `Array.prototype.join(",")`, the ToString of a JS array. -/
def jsJoinList : List Js → String
  | [] => ""
  | [x] => jsJoinElemString x
  | x :: y :: rest => jsJoinElemString x ++ "," ++ jsJoinList (y :: rest)

end

/-- JS ToString as the URL constructor applies it to its argument. -/
def jsToString : Js → String
  | .undef => "undefined"
  | .null => "null"
  | .bool b => if b then "true" else "false"
  | .num n => jsNumToString n
  | .str s => s
  | .arr xs => jsJoinList xs
  | .obj _ => "[object Object]"

/-- `validateUrl` (lines 79-87): a falsy value yields `undefined`; otherwise
`new URL(url)` coerces its argument to a string (for an array, the
comma-join of its elements) and must parse, and then
`url.includes('example.com')` is a substring test on a string receiver but
an element-membership test (`Array.prototype.includes`) on an array
receiver; a receiver without an `includes` method throws, which the
surrounding catch turns into `undefined`.  A kept url is returned as the
original value — for an array receiver, the array itself. -/
def validateUrl (url : Js) : Option Js :=
  if !truthy url then none
  else if !isValidUrl (jsToString url) then none
  else
    match url with
    | .str s => if strIncludes s "example.com" then none else some (.str s)
    | .arr xs =>
      if xs.any (fun x => strictEqStr x "example.com") then none else some (.arr xs)
    | _ => none

/-- The record literal built by `validateSource` (lines 90-96). -/
def mkValidatedSource (currentYear : String) (n relv y u d : Js) : Source :=
  { name := jsOr n (.str "Unknown Source")
    reliability_score := validateNumber relv 0 (.fin 1)
    year_published := jsOr y (.str currentYear)
    url := validateUrl u
    doi := d }

/-- `validateSource` (lines 89-97); the property reads throw when the source
entry is `undefined`/`null`. -/
def validateSource (currentYear : String) (source : Js) : Except String Source := do
  let n ← getProp source "name"
  let relv ← getProp source "reliability_score"
  let y ← getProp source "year_published"
  let u ← getProp source "url"
  let d ← getProp source "doi"
  pure (mkValidatedSource currentYear n relv y u d)

/-! ### Footprint and metadata validation (src/lib/gemini.ts lines 99-156) -/

/-- The `data_source` text that triggers the standardized-human branch. -/
def humanDataSourceTag : String := "Global standardized human values"

/-- The `geographical_region` text that triggers the standardized-human
branch. -/
def humanRegionTag : String := "Global standardized"

/-- The fixed record returned for the standardized-human branch
(lines 110-127). -/
def humanFootprint : CarbonFootprint :=
  { manufacturing_kg_co2 := .fin 0
    daily_operation_kg_co2 := .fin 15
    lifetime_total_kg_co2 := .fin 400000
    unit := "kg_co2"
    confidence_score := .fin (99 / 100)
    calculation_basis := "Based on global standardized human values"
    sources := [{ name := .str "Global standardized human values"
                  reliability_score := .fin (99 / 100)
                  year_published := .str "2024"
                  url := none
                  doi := .undef }]
    trees_required := calculateTreesRequired (.fin 400000) }

/-- The record literal built by the general branch of
`validateCarbonFootprint` (lines 130-145). -/
def mkValidatedFootprint (manufacturing daily_operation lifespan : JsNum) (conf : Js)
    (srcs : List Source) : CarbonFootprint :=
  let calculated_lifetime_total := calculateLifetimeEmissions manufacturing daily_operation lifespan
  { manufacturing_kg_co2 := manufacturing
    daily_operation_kg_co2 := daily_operation
    lifetime_total_kg_co2 := calculated_lifetime_total
    unit := "kg_co2"
    confidence_score := validateNumber conf 0 (.fin 1)
    calculation_basis :=
      "Based on " ++ jsNumToString lifespan ++ " years lifespan with manufacturing emissions of "
        ++ jsNumToString manufacturing ++ " kg CO2 and daily operational emissions of "
        ++ jsNumToString daily_operation ++ " kg CO2"
    sources := srcs
    trees_required := calculateTreesRequired calculated_lifetime_total }

/-- Sequential effectful map: `Array.prototype.map` with a callback that can
throw (the first exception aborts the whole map). -/
def mapExcept (f : α → Except String β) : List α → Except String (List β)
  | [] => .ok []
  | x :: xs => do
    let y ← f x
    let ys ← mapExcept f xs
    pure (y :: ys)

/-- Calling `.map` on a non-array value throws. -/
def asArray : Js → Except String (List Js)
  | .arr xs => .ok xs
  | _ => .error "TypeError: map is not a function"

/-- `validateCarbonFootprint` (lines 99-146). -/
def validateCarbonFootprint (currentYear : String) (footprint metadata : Js) :
    Except String CarbonFootprint := do
  let mRaw ← getProp footprint "manufacturing_kg_co2"
  let dRaw ← getProp footprint "daily_operation_kg_co2"
  let lRaw ← getProp metadata "assumed_lifespan_years"
  let manufacturing := validateNumber mRaw 0 .posInf
  let daily_operation := validateNumber dRaw 0 .posInf
  let lifespan := validateNumber lRaw 1 .posInf
  let ds ← getProp metadata "data_source"
  let gr ← getProp metadata "geographical_region"
  if strictEqStr ds humanDataSourceTag || strictEqStr gr humanRegionTag then
    pure humanFootprint
  else do
    let conf ← getProp footprint "confidence_score"
    let srcsRaw ← getProp footprint "sources"
    let srcsList ← asArray (jsOr srcsRaw (.arr []))
    let srcs ← mapExcept (validateSource currentYear) srcsList
    pure (mkValidatedFootprint manufacturing daily_operation lifespan conf srcs)

/-- The record literal built by `validateMetadata` (lines 149-155). -/
def mkValidatedMetadata (l u d g : Js) (ms : Option Source) : ObjectMetadata :=
  { assumed_lifespan_years := validateNumber l 1 .posInf
    usage_assumptions := jsOr u (.str "Standard usage patterns")
    data_source := jsOr d (.str "Verified environmental impact studies")
    geographical_region := jsOr g (.str "Global")
    methodology_source := ms }

/-- `validateMetadata` (lines 148-156). -/
def validateMetadata (currentYear : String) (metadata : Js) : Except String ObjectMetadata := do
  let l ← getProp metadata "assumed_lifespan_years"
  let u ← getProp metadata "usage_assumptions"
  let d ← getProp metadata "data_source"
  let g ← getProp metadata "geographical_region"
  let m ← getProp metadata "methodology_source"
  let ms ← if truthy m then Except.map some (validateSource currentYear m) else pure none
  pure (mkValidatedMetadata l u d g ms)

/-! ### Result assembly (src/lib/gemini.ts lines 400-416) -/

/-- The per-object step of `parsedResult.objects.map` (lines 402-406). -/
def processObject (currentYear : String) (obj : Js) : Except String DetectedObject := do
  let nm ← getProp obj "name"
  let cf ← getProp obj "carbon_footprint"
  let md ← getProp obj "metadata"
  let fp ← validateCarbonFootprint currentYear cf md
  let vmd ← validateMetadata currentYear md
  pure { name := nm, carbon_footprint := fp, metadata := vmd }

/-- Assembly of `processedResult` from the parsed payload (lines 400-416);
`now` stands for `new Date().toISOString()`. -/
def processResult (now currentYear : String) (parsed : Js) : Except String AnalysisResult := do
  let objsRaw ← getProp parsed "objects"
  let objsList ← asArray objsRaw
  let objects ← mapExcept (processObject currentYear) objsList
  let am ← getProp parsed "analysis_metadata"
  let iq ← getProp am "image_quality"
  let dr ← getProp am "default_region"
  let mv ← getProp am "model_version"
  let dsRaw ← getProp am "data_sources"
  let dsList ← asArray (jsOr dsRaw (.arr []))
  let ds ← mapExcept (validateSource currentYear) dsList
  pure { objects := objects
         analysis_metadata :=
           { timestamp := now
             image_quality := jsOr iq (.str "standard")
             number_of_objects_detected := objsList.length
             default_region := jsOr dr (.str "Global")
             model_version := jsOr mv (.str "1.0")
             data_sources := ds } }

/-- The outer catch of `analyzeImage` (lines 420-423): any thrown error is
re-thrown wrapped with a fixed prefix. -/
def wrapOuter : Except String AnalysisResult → Except String AnalysisResult
  | .ok r => .ok r
  | .error e => .error ("Image analysis failed: " ++ e)

/-- The response-handling portion of `analyzeImage` (lines 389-423): try a
direct parse, fall back to the brace-extracted substring, process the parsed
value, and wrap any thrown error with the outer catch's message.  The
`SyntaxError` text of a failing second parse is modelled by a fixed
string. -/
def analyzeImage (now currentYear text : String) : Except String AnalysisResult :=
  wrapOuter
    (match parseJson text with
     | some parsed => processResult now currentYear parsed
     | none =>
       match braceExtract text with
       | none => .error "Invalid response format from AI model"
       | some sub =>
         match parseJson sub with
         | some parsed => processResult now currentYear parsed
         | none => .error "Unexpected token in JSON")

/-! ### Re-injecting validated records as JS values (for idempotence) -/

/-- An optional kept url as the JS value it denotes (absent is
`undefined`). -/
def urlToJs : Option Js → Js
  | some v => v
  | none => (.undef)

/-- A validated `Source` as the JS object the renderer would hold. -/
def Source.toJs (s : Source) : Js :=
  .obj [("name", s.name),
        ("reliability_score", .num s.reliability_score),
        ("year_published", s.year_published),
        ("url", urlToJs s.url),
        ("doi", s.doi)]

/-- A validated `CarbonFootprint` as a JS object. -/
def CarbonFootprint.toJs (f : CarbonFootprint) : Js :=
  .obj [("lifetime_total_kg_co2", .num f.lifetime_total_kg_co2),
        ("manufacturing_kg_co2", .num f.manufacturing_kg_co2),
        ("daily_operation_kg_co2", .num f.daily_operation_kg_co2),
        ("unit", .str f.unit),
        ("confidence_score", .num f.confidence_score),
        ("calculation_basis", .str f.calculation_basis),
        ("sources", .arr (f.sources.map Source.toJs)),
        ("trees_required", .num f.trees_required)]

/-- An optional methodology source as the JS value it denotes. -/
def msToJs : Option Source → Js
  | some s => Source.toJs s
  | none => (.undef)

/-- A validated `ObjectMetadata` as a JS object. -/
def ObjectMetadata.toJs (m : ObjectMetadata) : Js :=
  .obj [("assumed_lifespan_years", .num m.assumed_lifespan_years),
        ("usage_assumptions", m.usage_assumptions),
        ("data_source", m.data_source),
        ("geographical_region", m.geographical_region),
        ("methodology_source", msToJs m.methodology_source)]

/-! ### Derived predicates, fallbacks, and concrete inputs for the
witnesses -/

/-- Whether an extended JS number is an integer that is at least 1. -/
def jsNumIsPosInt : JsNum → Bool
  | .fin q => decide (q.den = 1 ∧ 1 ≤ q.num)
  | _ => false

/-- A score value is a finite rational in `[0, 1]`. -/
def scoreOk (n : JsNum) : Prop := ∃ q, n = .fin q ∧ 0 ≤ q ∧ q ≤ 1

/-- Extract the payload of a successful computation, with a fallback. -/
def exceptGetOr (d : α) : Except String α → α
  | .ok a => a
  | .error _ => d

/-- Boolean success test for a computation. -/
def exceptIsOk : Except String α → Bool
  | .ok _ => true
  | .error _ => false

/-- A neutral footprint record used only as an `exceptGetOr` fallback. -/
def fallbackFootprint : CarbonFootprint :=
  mkValidatedFootprint (.fin 0) (.fin 0) (.fin 1) .undef []

/-- A neutral metadata record used only as an `exceptGetOr` fallback. -/
def fallbackMetadata : ObjectMetadata := mkValidatedMetadata .undef .undef .undef .undef none

/-- A neutral analysis result used only as an `exceptGetOr` fallback. -/
def fallbackResult : AnalysisResult :=
  { objects := []
    analysis_metadata :=
      { timestamp := ""
        image_quality := .undef
        number_of_objects_detected := 0
        default_region := .undef
        model_version := .undef
        data_sources := [] } }

instance : Inhabited DetectedObject :=
  ⟨{ name := .undef, carbon_footprint := fallbackFootprint, metadata := fallbackMetadata }⟩

/-- A concrete non-human footprint input. -/
def c1fp : Js :=
  .obj [("manufacturing_kg_co2", .num (.fin 5)),
        ("daily_operation_kg_co2", .num (.fin 2)),
        ("lifetime_total_kg_co2", .num (.fin 999999)),
        ("confidence_score", .num (.fin (9 / 10))),
        ("sources", .arr [])]

/-- A concrete non-human metadata input. -/
def c1md : Js := .obj [("assumed_lifespan_years", .num (.fin 2))]

/-- The normalization of `c1fp`/`c1md`. -/
def c1r : CarbonFootprint :=
  exceptGetOr fallbackFootprint (validateCarbonFootprint "2025" c1fp c1md)

/-- A concrete human-category metadata input. -/
def c2md : Js := .obj [("geographical_region", .str "Global standardized")]

/-- An input whose lifespan field is the string `"Infinity"`: the JS
`Number(-)` coercion maps it to Infinity, the derived lifetime total becomes
`0 * Infinity = NaN`, and `trees_required` ends up NaN — neither an integer
nor `>= 1`. -/
def c3Input : Js :=
  .obj [("objects",
          .arr [.obj [("name", .str "Mystery item"),
                      ("carbon_footprint", .obj []),
                      ("metadata", .obj [("assumed_lifespan_years", .str "Infinity")])]]),
        ("analysis_metadata", .obj [])]

/-- The normalization of `c3Input` (it succeeds). -/
def c3Output : AnalysisResult := exceptGetOr fallbackResult (processResult "T" "2025" c3Input)

/-- A small all-finite input for the amended C3 theorem. -/
def c3FinInput : Js :=
  .obj [("objects",
          .arr [.obj [("name", .str "Pencil"),
                      ("carbon_footprint", .obj [("manufacturing_kg_co2", .num (.fin 5))]),
                      ("metadata", .obj [("assumed_lifespan_years", .num (.fin 1))])]]),
        ("analysis_metadata", .obj [])]

/-- The normalization of `c3FinInput`. -/
def c3FinOutput : AnalysisResult :=
  exceptGetOr fallbackResult (processResult "T" "2025" c3FinInput)

/-- The single detected object of `c3FinOutput`. -/
def c3FinObj : DetectedObject := c3FinOutput.objects.headI

/-- A clean JSON body for the C4 witness. -/
def c4Clean : String := "\x7b\"objects\":[],\"analysis_metadata\":\x7b\x7d\x7d"

/-- What `JSON.parse` yields on `c4Clean`. -/
def c4Parsed : Js := .obj [("objects", .arr []), ("analysis_metadata", .obj [])]

/-- A concrete input with a confidence score above 1 and a reliability score
below 0. -/
def c5Input : Js :=
  .obj [("objects",
          .arr [.obj [("name", .str "Mug"),
                      ("carbon_footprint",
                        .obj [("manufacturing_kg_co2", .num (.fin 5)),
                              ("confidence_score", .num (.fin (14 / 10))),
                              ("sources",
                                .arr [.obj [("name", .str "Some study"),
                                            ("reliability_score", .num (.fin (-3)))]])]),
                      ("metadata", .obj [("assumed_lifespan_years", .num (.fin 2))])]]),
        ("analysis_metadata", .obj [])]

/-- The normalization of `c5Input`. -/
def c5Output : AnalysisResult := exceptGetOr fallbackResult (processResult "T" "2025" c5Input)

/-- The single detected object of `c5Output`. -/
def c5Obj : DetectedObject := c5Output.objects.headI

/-- An input whose only object carries a `carbon_footprint` key, so the
present-but-malformed fields inside it are repaired by defaulting. -/
def c6Present : Js :=
  .obj [("objects",
          .arr [.obj [("name", .str "Widget"),
                      ("carbon_footprint", .obj [("manufacturing_kg_co2", .str "junk")]),
                      ("metadata", .obj [])]]),
        ("analysis_metadata", .obj [])]

/-- The normalization of `c6Present`. -/
def c6PresentOutput : AnalysisResult :=
  exceptGetOr fallbackResult (processResult "T" "2025" c6Present)

/-- An input whose only object has no `carbon_footprint` key at all. -/
def c6Absent : Js :=
  .obj [("objects", .arr [.obj [("name", .str "Widget"), ("metadata", .obj [])]]),
        ("analysis_metadata", .obj [])]

/-- An input whose raw metadata claims 99 detected objects but carries
exactly one. -/
def c7Input : Js :=
  .obj [("objects",
          .arr [.obj [("name", .str "Chair"),
                      ("carbon_footprint", .obj [("manufacturing_kg_co2", .num (.fin 15))]),
                      ("metadata", .obj [("assumed_lifespan_years", .num (.fin 10))])]]),
        ("analysis_metadata", .obj [("number_of_objects_detected", .num (.fin 99))])]

/-- The normalization of `c7Input`. -/
def c7Output : AnalysisResult := exceptGetOr fallbackResult (processResult "T" "2025" c7Input)

/-- A concrete footprint input for the C8 witness (messy values that the
validators repair). -/
def c8fp : Js :=
  .obj [("manufacturing_kg_co2", .num (.fin (-2))),
        ("daily_operation_kg_co2", .str "0.5"),
        ("lifetime_total_kg_co2", .num (.fin 123456)),
        ("confidence_score", .num (.fin 2)),
        ("sources", .arr [.obj [("name", .str "Study"),
                                ("reliability_score", .num (.fin (3 / 2))),
                                ("url", .str "https://epa.gov/data")]])]

/-- A concrete metadata input for the C8 witness. -/
def c8md : Js := .obj [("assumed_lifespan_years", .num (.fin 0))]

/-- The validated footprint of `c8fp`/`c8md`. -/
def c8r : CarbonFootprint :=
  exceptGetOr fallbackFootprint (validateCarbonFootprint "2025" c8fp c8md)

/-- The validated metadata of `c8md`. -/
def c8m2 : ObjectMetadata := exceptGetOr fallbackMetadata (validateMetadata "2025" c8md)

/-- A concrete source entry whose URL is syntactically valid but points at
the placeholder domain, with an out-of-range reliability score. -/
def c9src : Js :=
  .obj [("url", .str "https://www.example.com/data"),
        ("reliability_score", .num (.fin 2))]

/-- An array url whose ToString is a placeholder URL: the URL constructor
accepts its string form, but `Array.prototype.includes('example.com')` does
element equality and returns false, so `validateUrl` keeps it. -/
def c9ArrUrl : Js := .arr [.str "http://example.com"]

/-- A source entry carrying the array url `c9ArrUrl`. -/
def c9BadSrc : Js := .obj [("url", c9ArrUrl)]

/-! ### Supporting lemmas -/

/-- The executable ceiling on `ℚ` agrees with the mathematical one. -/
theorem ratCeil_eq_ceil (q : ℚ) : Rat.ceil q = ⌈q⌉ := by
  unfold Rat.ceil
  split_ifs with h
  · have hq : (q.num : ℚ) = q := Rat.coe_int_num_of_den_eq_one h
    rw [← hq, Int.ceil_intCast]
    exact Rat.num_intCast q.num
  · have hne : (⌊q⌋ : ℚ) ≠ q := by
      intro he
      have hd : ((⌊q⌋ : ℚ)).den = 1 := Rat.den_intCast _
      rw [he] at hd
      exact h hd
    have h1 : (⌊q⌋ : ℚ) < q := lt_of_le_of_ne (Int.floor_le q) hne
    have h2 : q < (⌊q⌋ : ℚ) + 1 := Int.lt_floor_add_one q
    have : q.num / (q.den : ℤ) = ⌊q⌋ := (Rat.floor_def).symm
    rw [this]
    symm
    rw [Int.ceil_eq_iff]
    constructor
    · push_cast
      linarith
    · push_cast
      linarith

/-! ### Basic lemmas about the monadic plumbing -/

@[simp]
theorem bind_ok_eq (a : α) (f : α → Except String β) : Except.ok a >>= f = f a := rfl

@[simp]
theorem bind_error_eq (e : String) (f : α → Except String β) :
    (Except.error e : Except String α) >>= f = .error e := rfl

@[simp]
theorem pure_eq_ok (a : α) : (pure a : Except String α) = .ok a := rfl

@[simp]
theorem map_ok_eq (f : α → β) (a : α) : Except.map f (.ok a : Except String α) = .ok (f a) := rfl

@[simp]
theorem map_error_eq (f : α → β) (e : String) :
    Except.map f (.error e : Except String α) = .error e := rfl

theorem mapExcept_ok_length (f : α → Except String β) :
    ∀ xs ys, mapExcept f xs = .ok ys → ys.length = xs.length := by
  intro xs
  induction xs with
  | nil => intro ys h; simp [mapExcept] at h; simp [← h]
  | cons x xs ih =>
    intro ys h
    rcases h1 : f x with e | y <;> rw [mapExcept, h1] at h
    · cases h
    rcases h2 : mapExcept f xs with e | ys2 <;> rw [h2] at h
    · cases h
    simp at h
    simp [← h, ih ys2 h2]

theorem mapExcept_ok_mem (f : α → Except String β) :
    ∀ xs ys, mapExcept f xs = .ok ys → ∀ y ∈ ys, ∃ x ∈ xs, f x = .ok y := by
  intro xs
  induction xs with
  | nil =>
    intro ys h y hy
    simp [mapExcept] at h
    subst h
    cases hy
  | cons x xs ih =>
    intro ys h y hy
    rcases h1 : f x with e | y1 <;> rw [mapExcept, h1] at h
    · cases h
    rcases h2 : mapExcept f xs with e | ys2 <;> rw [h2] at h
    · cases h
    simp at h
    rw [← h] at hy
    rcases List.mem_cons.mp hy with hy | hy
    · exact ⟨x, List.mem_cons_self x xs, hy ▸ h1⟩
    · rcases ih ys2 h2 y hy with ⟨x2, hx2, hfx2⟩
      exact ⟨x2, List.mem_cons_of_mem x hx2, hfx2⟩

theorem mapExcept_error_of_mem (f : α → Except String β) :
    ∀ xs x e, x ∈ xs → f x = .error e → ∃ e2, mapExcept f xs = .error e2 := by
  intro xs
  induction xs with
  | nil => intro x e hx; cases hx
  | cons a xs ih =>
    intro x e hx hfe
    rcases List.mem_cons.mp hx with rfl | hx
    · exact ⟨e, by rw [mapExcept, hfe]; rfl⟩
    rcases h1 : f a with e1 | y
    · exact ⟨e1, by rw [mapExcept, h1]; rfl⟩
    rcases ih x e hx hfe with ⟨e2, h2⟩
    exact ⟨e2, by rw [mapExcept, h1, bind_ok_eq, h2]; rfl⟩

theorem mapExcept_of_pointwise (f : α → Except String β) (g : β → α) :
    ∀ ys, (∀ y ∈ ys, f (g y) = .ok y) → mapExcept f (ys.map g) = .ok ys := by
  intro ys
  induction ys with
  | nil => intro _; rfl
  | cons y ys ih =>
    intro h
    rw [List.map_cons, mapExcept, h y (List.mem_cons_self y ys),
      ih (fun z hz => h z (List.mem_cons_of_mem y hz))]
    rfl

/-! ### Basic lemmas about property access and coercion -/

theorem getProp_ok_of_ok (s : Js) (k k2 : String) (v : Js) (h : getProp s k = .ok v) :
    ∃ w, getProp s k2 = .ok w := by
  cases s <;> simp [getProp] at h ⊢

theorem getProp_ok_of_not_nullish (s : Js) (k : String) (h : jsNullish s = false) :
    ∃ w, getProp s k = .ok w := by
  cases s <;> simp [jsNullish] at h ⊢ <;> simp [getProp]

/-! ### Characterizations of `validateNumber` -/

theorem validateNumber_nonneg (v : Js) (lo : ℚ) :
    validateNumber v lo .posInf = .posInf ∨
      ∃ q, validateNumber v lo .posInf = .fin q ∧ lo ≤ q := by
  unfold validateNumber
  rcases h : toNumber v with _ | _ | _ | q
  · simp [h]
  · simp [h, jsMin, jsMax]
  · simp [h, jsMin, jsMax]
  · simp [h, jsMin, jsMax]

theorem validateNumber_fix_nonneg (lo : ℚ) (n : JsNum)
    (h : n = .posInf ∨ ∃ q, n = .fin q ∧ lo ≤ q) :
    validateNumber (.num n) lo .posInf = n := by
  rcases h with rfl | ⟨q, rfl, hq⟩
  · simp [validateNumber, toNumber, jsMin, jsMax]
  · simp [validateNumber, toNumber, jsMin, jsMax, max_eq_right hq]

theorem validateNumber01 (v : Js) :
    ∃ q, validateNumber v 0 (.fin 1) = .fin q ∧ 0 ≤ q ∧ q ≤ 1 := by
  unfold validateNumber
  rcases h : toNumber v with _ | _ | _ | q
  · exact ⟨0, by simp [h], le_refl 0, zero_le_one⟩
  · exact ⟨1, by simp [h, jsMin, jsMax], zero_le_one, le_refl 1⟩
  · exact ⟨0, by simp [h, jsMin, jsMax], le_refl 0, zero_le_one⟩
  · exact ⟨min 1 (max 0 q), by simp [h, jsMin, jsMax],
      le_min zero_le_one (le_max_left 0 q), min_le_left 1 (max 0 q)⟩

theorem validateNumber01_fix (q : ℚ) (h0 : 0 ≤ q) (h1 : q ≤ 1) :
    validateNumber (.num (.fin q)) 0 (.fin 1) = .fin q := by
  simp [validateNumber, toNumber, jsMin, jsMax, max_eq_right h0, min_eq_right h1]

/-! ### Idempotence building blocks -/

theorem jsOr_idem (a d : Js) : jsOr (jsOr a d) d = jsOr a d := by
  unfold jsOr
  by_cases h : truthy a = true <;> simp [h]

theorem validateUrl_some_elim (u v : Js) (h : validateUrl u = some v) :
    (∃ s, u = .str s ∧ v = .str s ∧ truthy (.str s) = true ∧ isValidUrl s = true ∧
      strIncludes s "example.com" = false) ∨
    (∃ xs, u = .arr xs ∧ v = .arr xs ∧ isValidUrl (jsToString (.arr xs)) = true ∧
      xs.any (fun x => strictEqStr x "example.com") = false) := by
  cases u <;> simp [validateUrl, jsToString] at h
  case str t =>
    rcases h with ⟨ht, hv, hi, rfl⟩
    exact Or.inl ⟨t, rfl, rfl, ht, hv, by simp [hi]⟩
  case arr xs =>
    rcases h with ⟨hv, hm, hall, rfl⟩
    exact Or.inr ⟨xs, rfl, rfl, by simpa [jsToString] using hm, by simpa using hall⟩

/-- A url that validation keeps is the receiver itself (a string or an
array). -/
theorem validateUrl_some_eq (u v : Js) (h : validateUrl u = some v) : v = u := by
  rcases validateUrl_some_elim u v h with ⟨s, rfl, rfl, _, _, _⟩ | ⟨xs, rfl, rfl, _, _⟩ <;> rfl

theorem validateUrl_fix (u : Js) :
    validateUrl (urlToJs (validateUrl u)) = validateUrl u := by
  rcases h : validateUrl u with _ | v
  · simp [urlToJs, validateUrl, truthy]
  · have hv := validateUrl_some_eq u v h
    subst hv
    exact h

/-! ### Elimination lemmas: what a successful validation tells us -/

theorem validateSource_ok_elim (cy : String) (s : Js) (r : Source)
    (h : validateSource cy s = .ok r) :
    ∃ n relv y u d,
      getProp s "name" = .ok n ∧ getProp s "reliability_score" = .ok relv ∧
      getProp s "year_published" = .ok y ∧ getProp s "url" = .ok u ∧
      getProp s "doi" = .ok d ∧ r = mkValidatedSource cy n relv y u d := by
  unfold validateSource at h
  rcases h1 : getProp s "name" with e | n <;> rw [h1] at h
  · rw [bind_error_eq] at h; cases h
  rw [bind_ok_eq] at h
  rcases h2 : getProp s "reliability_score" with e | relv <;> rw [h2] at h
  · rw [bind_error_eq] at h; cases h
  rw [bind_ok_eq] at h
  rcases h3 : getProp s "year_published" with e | y <;> rw [h3] at h
  · rw [bind_error_eq] at h; cases h
  rw [bind_ok_eq] at h
  rcases h4 : getProp s "url" with e | u <;> rw [h4] at h
  · rw [bind_error_eq] at h; cases h
  rw [bind_ok_eq] at h
  rcases h5 : getProp s "doi" with e | d <;> rw [h5] at h
  · rw [bind_error_eq] at h; cases h
  rw [bind_ok_eq, pure_eq_ok] at h
  exact ⟨n, relv, y, u, d, rfl, rfl, rfl, rfl, rfl, (Except.ok.inj h).symm⟩

theorem validateMetadata_ok_elim (cy : String) (md : Js) (r : ObjectMetadata)
    (h : validateMetadata cy md = .ok r) :
    ∃ l u d g m ms,
      getProp md "assumed_lifespan_years" = .ok l ∧
      getProp md "usage_assumptions" = .ok u ∧
      getProp md "data_source" = .ok d ∧
      getProp md "geographical_region" = .ok g ∧
      getProp md "methodology_source" = .ok m ∧
      ((truthy m = true ∧ ∃ s2, validateSource cy m = .ok s2 ∧ ms = some s2) ∨
        (truthy m = false ∧ ms = none)) ∧
      r = mkValidatedMetadata l u d g ms := by
  unfold validateMetadata at h
  rcases h1 : getProp md "assumed_lifespan_years" with e | l <;> rw [h1] at h
  · rw [bind_error_eq] at h; cases h
  rw [bind_ok_eq] at h
  rcases h2 : getProp md "usage_assumptions" with e | u <;> rw [h2] at h
  · rw [bind_error_eq] at h; cases h
  rw [bind_ok_eq] at h
  rcases h3 : getProp md "data_source" with e | d <;> rw [h3] at h
  · rw [bind_error_eq] at h; cases h
  rw [bind_ok_eq] at h
  rcases h4 : getProp md "geographical_region" with e | g <;> rw [h4] at h
  · rw [bind_error_eq] at h; cases h
  rw [bind_ok_eq] at h
  rcases h5 : getProp md "methodology_source" with e | m <;> rw [h5] at h
  · rw [bind_error_eq] at h; cases h
  rw [bind_ok_eq] at h
  by_cases hm : truthy m = true
  · rcases h7 : validateSource cy m with e | s2
    · simp [hm, h7] at h
    · simp [hm, h7] at h
      exact ⟨l, u, d, g, m, some s2, rfl, rfl, rfl, rfl, rfl,
        Or.inl ⟨hm, s2, h7, rfl⟩, h.symm⟩
  · simp [hm] at h
    exact ⟨l, u, d, g, m, none, rfl, rfl, rfl, rfl, rfl,
      Or.inr ⟨Bool.not_eq_true _ ▸ hm, rfl⟩, h.symm⟩

theorem validateCarbonFootprint_ok_elim (cy : String) (fp md : Js) (r : CarbonFootprint)
    (h : validateCarbonFootprint cy fp md = .ok r) :
    ∃ mRaw dRaw lRaw ds gr,
      getProp fp "manufacturing_kg_co2" = .ok mRaw ∧
      getProp fp "daily_operation_kg_co2" = .ok dRaw ∧
      getProp md "assumed_lifespan_years" = .ok lRaw ∧
      getProp md "data_source" = .ok ds ∧
      getProp md "geographical_region" = .ok gr ∧
      (((strictEqStr ds humanDataSourceTag || strictEqStr gr humanRegionTag) = true ∧
          r = humanFootprint) ∨
        ((strictEqStr ds humanDataSourceTag || strictEqStr gr humanRegionTag) = false ∧
          ∃ conf srcsRaw srcsList srcs,
            getProp fp "confidence_score" = .ok conf ∧
            getProp fp "sources" = .ok srcsRaw ∧
            asArray (jsOr srcsRaw (.arr [])) = .ok srcsList ∧
            mapExcept (validateSource cy) srcsList = .ok srcs ∧
            r = mkValidatedFootprint (validateNumber mRaw 0 .posInf)
                  (validateNumber dRaw 0 .posInf) (validateNumber lRaw 1 .posInf) conf srcs)) := by
  simp only [validateCarbonFootprint] at h
  rcases h1 : getProp fp "manufacturing_kg_co2" with e | mRaw <;> rw [h1] at h
  · rw [bind_error_eq] at h; cases h
  rw [bind_ok_eq] at h
  rcases h2 : getProp fp "daily_operation_kg_co2" with e | dRaw <;> rw [h2] at h
  · rw [bind_error_eq] at h; cases h
  rw [bind_ok_eq] at h
  rcases h3 : getProp md "assumed_lifespan_years" with e | lRaw <;> rw [h3] at h
  · rw [bind_error_eq] at h; cases h
  rw [bind_ok_eq] at h
  rcases h4 : getProp md "data_source" with e | ds <;> rw [h4] at h
  · rw [bind_error_eq] at h; cases h
  rw [bind_ok_eq] at h
  rcases h5 : getProp md "geographical_region" with e | gr <;> rw [h5] at h
  · rw [bind_error_eq] at h; cases h
  rw [bind_ok_eq] at h
  refine ⟨mRaw, dRaw, lRaw, ds, gr, rfl, rfl, rfl, rfl, rfl, ?_⟩
  by_cases hb : (strictEqStr ds humanDataSourceTag || strictEqStr gr humanRegionTag) = true
  · rw [if_pos hb, pure_eq_ok] at h
    exact Or.inl ⟨hb, (Except.ok.inj h).symm⟩
  · rw [if_neg hb] at h
    rcases h6 : getProp fp "confidence_score" with e | conf <;> rw [h6] at h
    · rw [bind_error_eq] at h; cases h
    rw [bind_ok_eq] at h
    rcases h7 : getProp fp "sources" with e | srcsRaw <;> rw [h7] at h
    · rw [bind_error_eq] at h; cases h
    rw [bind_ok_eq] at h
    rcases h8 : asArray (jsOr srcsRaw (.arr [])) with e | srcsList <;> rw [h8] at h
    · rw [bind_error_eq] at h; cases h
    rw [bind_ok_eq] at h
    rcases h9 : mapExcept (validateSource cy) srcsList with e | srcs <;> rw [h9] at h
    · rw [bind_error_eq] at h; cases h
    rw [bind_ok_eq, pure_eq_ok] at h
    exact Or.inr ⟨Bool.not_eq_true _ ▸ hb, conf, srcsRaw, srcsList, srcs, rfl, rfl, h8, h9,
      (Except.ok.inj h).symm⟩

theorem processObject_ok_elim (cy : String) (obj : Js) (r : DetectedObject)
    (h : processObject cy obj = .ok r) :
    ∃ nm cf md fp vmd,
      getProp obj "name" = .ok nm ∧
      getProp obj "carbon_footprint" = .ok cf ∧
      getProp obj "metadata" = .ok md ∧
      validateCarbonFootprint cy cf md = .ok fp ∧
      validateMetadata cy md = .ok vmd ∧
      r = { name := nm, carbon_footprint := fp, metadata := vmd } := by
  unfold processObject at h
  rcases h1 : getProp obj "name" with e | nm <;> rw [h1] at h
  · rw [bind_error_eq] at h; cases h
  rw [bind_ok_eq] at h
  rcases h2 : getProp obj "carbon_footprint" with e | cf <;> rw [h2] at h
  · rw [bind_error_eq] at h; cases h
  rw [bind_ok_eq] at h
  rcases h3 : getProp obj "metadata" with e | md <;> rw [h3] at h
  · rw [bind_error_eq] at h; cases h
  rw [bind_ok_eq] at h
  rcases h4 : validateCarbonFootprint cy cf md with e | fp <;> rw [h4] at h
  · rw [bind_error_eq] at h; cases h
  rw [bind_ok_eq] at h
  rcases h5 : validateMetadata cy md with e | vmd <;> rw [h5] at h
  · rw [bind_error_eq] at h; cases h
  rw [bind_ok_eq, pure_eq_ok] at h
  exact ⟨nm, cf, md, fp, vmd, rfl, rfl, rfl, h4, h5, (Except.ok.inj h).symm⟩

theorem processResult_ok_elim (now cy : String) (parsed : Js) (r : AnalysisResult)
    (h : processResult now cy parsed = .ok r) :
    ∃ objsRaw objsList objects am iq dr mv dsRaw dsList ds,
      getProp parsed "objects" = .ok objsRaw ∧
      asArray objsRaw = .ok objsList ∧
      mapExcept (processObject cy) objsList = .ok objects ∧
      getProp parsed "analysis_metadata" = .ok am ∧
      getProp am "image_quality" = .ok iq ∧
      getProp am "default_region" = .ok dr ∧
      getProp am "model_version" = .ok mv ∧
      getProp am "data_sources" = .ok dsRaw ∧
      asArray (jsOr dsRaw (.arr [])) = .ok dsList ∧
      mapExcept (validateSource cy) dsList = .ok ds ∧
      r = { objects := objects
            analysis_metadata :=
              { timestamp := now
                image_quality := jsOr iq (.str "standard")
                number_of_objects_detected := objsList.length
                default_region := jsOr dr (.str "Global")
                model_version := jsOr mv (.str "1.0")
                data_sources := ds } } := by
  unfold processResult at h
  rcases h1 : getProp parsed "objects" with e | objsRaw <;> rw [h1] at h
  · rw [bind_error_eq] at h; cases h
  rw [bind_ok_eq] at h
  rcases h2 : asArray objsRaw with e | objsList <;> rw [h2] at h
  · rw [bind_error_eq] at h; cases h
  rw [bind_ok_eq] at h
  rcases h3 : mapExcept (processObject cy) objsList with e | objects <;> rw [h3] at h
  · rw [bind_error_eq] at h; cases h
  rw [bind_ok_eq] at h
  rcases h4 : getProp parsed "analysis_metadata" with e | am <;> rw [h4] at h
  · rw [bind_error_eq] at h; cases h
  rw [bind_ok_eq] at h
  rcases h5 : getProp am "image_quality" with e | iq <;> rw [h5] at h
  · rw [bind_error_eq] at h; cases h
  rw [bind_ok_eq] at h
  rcases h6 : getProp am "default_region" with e | dr <;> rw [h6] at h
  · rw [bind_error_eq] at h; cases h
  rw [bind_ok_eq] at h
  rcases h7 : getProp am "model_version" with e | mv <;> rw [h7] at h
  · rw [bind_error_eq] at h; cases h
  rw [bind_ok_eq] at h
  rcases h8 : getProp am "data_sources" with e | dsRaw <;> rw [h8] at h
  · rw [bind_error_eq] at h; cases h
  rw [bind_ok_eq] at h
  rcases h9 : asArray (jsOr dsRaw (.arr [])) with e | dsList <;> rw [h9] at h
  · rw [bind_error_eq] at h; cases h
  rw [bind_ok_eq] at h
  rcases h10 : mapExcept (validateSource cy) dsList with e | ds <;> rw [h10] at h
  · rw [bind_error_eq] at h; cases h
  rw [bind_ok_eq, pure_eq_ok] at h
  exact ⟨objsRaw, objsList, objects, am, iq, dr, mv, dsRaw, dsList, ds,
    rfl, h2, h3, rfl, h5, h6, h7, h8, h9, h10, (Except.ok.inj h).symm⟩

/-- The output of `validateCarbonFootprint` reads the footprint argument only
through its `manufacturing_kg_co2`, `daily_operation_kg_co2`,
`confidence_score` and `sources` properties — in particular never through
`lifetime_total_kg_co2`. -/
theorem validateCarbonFootprint_congr (cy : String) (fp1 fp2 md : Js)
    (h1 : getProp fp1 "manufacturing_kg_co2" = getProp fp2 "manufacturing_kg_co2")
    (h2 : getProp fp1 "daily_operation_kg_co2" = getProp fp2 "daily_operation_kg_co2")
    (h3 : getProp fp1 "confidence_score" = getProp fp2 "confidence_score")
    (h4 : getProp fp1 "sources" = getProp fp2 "sources") :
    validateCarbonFootprint cy fp1 md = validateCarbonFootprint cy fp2 md := by
  simp only [validateCarbonFootprint, h1, h2, h3, h4]

/-- Prepending a field with a different key does not change a property
read. -/
theorem getProp_cons_ne (fields : List (String × Js)) (k k2 : String) (v : Js)
    (h : (k == k2) = false) :
    getProp (.obj ((k2, v) :: fields)) k = getProp (.obj fields) k := by
  simp [getProp, List.lookup, h]

/-! ### Claim C1 -/

/-- C1: for every detected object that does not take the human-category
branch, the normalized `lifetime_total_kg_co2` equals
`manufacturing + daily_operation * 365 * lifespan` computed from the clamped
manufacturing, daily-operation and lifespan values, and the output footprint
does not depend on the raw `lifetime_total_kg_co2` field at all. -/
theorem C1_lifetime_recomputed (cy : String) (fp md : Js) (r : CarbonFootprint)
    (mRaw dRaw lRaw ds gr : Js)
    (hm : getProp fp "manufacturing_kg_co2" = .ok mRaw)
    (hd : getProp fp "daily_operation_kg_co2" = .ok dRaw)
    (hl : getProp md "assumed_lifespan_years" = .ok lRaw)
    (hds : getProp md "data_source" = .ok ds)
    (hgr : getProp md "geographical_region" = .ok gr)
    (hhuman : (strictEqStr ds humanDataSourceTag || strictEqStr gr humanRegionTag) = false)
    (hok : validateCarbonFootprint cy fp md = .ok r) :
    r.lifetime_total_kg_co2 =
      jsAdd (validateNumber mRaw 0 .posInf)
        (jsMul (jsMul (validateNumber dRaw 0 .posInf) (.fin 365))
          (validateNumber lRaw 1 .posInf)) ∧
    r.manufacturing_kg_co2 = validateNumber mRaw 0 .posInf ∧
    r.daily_operation_kg_co2 = validateNumber dRaw 0 .posInf ∧
    (∀ fields v, fp = .obj fields →
      validateCarbonFootprint cy (.obj (("lifetime_total_kg_co2", v) :: fields)) md = .ok r) := by
  rcases validateCarbonFootprint_ok_elim cy fp md r hok with
    ⟨mRaw2, dRaw2, lRaw2, ds2, gr2, hm2, hd2, hl2, hds2, hgr2, hbranch⟩
  obtain rfl : mRaw = mRaw2 := Except.ok.inj (hm.symm.trans hm2)
  obtain rfl : dRaw = dRaw2 := Except.ok.inj (hd.symm.trans hd2)
  obtain rfl : lRaw = lRaw2 := Except.ok.inj (hl.symm.trans hl2)
  obtain rfl : ds = ds2 := Except.ok.inj (hds.symm.trans hds2)
  obtain rfl : gr = gr2 := Except.ok.inj (hgr.symm.trans hgr2)
  rcases hbranch with ⟨hb, _⟩ | ⟨_, conf, srcsRaw, srcsList, srcs, _, _, _, _, hr⟩
  · rw [hhuman] at hb; cases hb
  subst hr
  refine ⟨rfl, rfl, rfl, ?_⟩
  intro fields v hfp
  rw [validateCarbonFootprint_congr cy (.obj (("lifetime_total_kg_co2", v) :: fields))
      (.obj fields) md (getProp_cons_ne fields _ _ v rfl) (getProp_cons_ne fields _ _ v rfl)
      (getProp_cons_ne fields _ _ v rfl) (getProp_cons_ne fields _ _ v rfl), ← hfp]
  exact hok

theorem C1_witness :
    validateCarbonFootprint "2025" c1fp c1md = .ok c1r ∧
    c1r.lifetime_total_kg_co2 =
      jsAdd (validateNumber (.num (.fin 5)) 0 .posInf)
        (jsMul (jsMul (validateNumber (.num (.fin 2)) 0 .posInf) (.fin 365))
          (validateNumber (.num (.fin 2)) 1 .posInf)) :=
  ⟨rfl,
    (C1_lifetime_recomputed "2025" c1fp c1md c1r _ _ _ _ _ rfl rfl rfl rfl rfl rfl rfl).1⟩

/-! ### Claim C2 -/

/-- C2: whenever the metadata signals the standardized-human record (through
`data_source` or `geographical_region`), the normalized footprint is the
fixed canonical human record — zero manufacturing, daily rate 15, lifetime
total 400000, confidence 0.99 and the single canonical source — independent
of every number carried by the raw footprint input. -/
theorem C2_human_record (cy : String) (fp md : Js) (ds gr : Js)
    (hfp : jsNullish fp = false)
    (hds : getProp md "data_source" = .ok ds)
    (hgr : getProp md "geographical_region" = .ok gr)
    (hhuman : (strictEqStr ds humanDataSourceTag || strictEqStr gr humanRegionTag) = true) :
    validateCarbonFootprint cy fp md = .ok humanFootprint ∧
    humanFootprint.manufacturing_kg_co2 = .fin 0 ∧
    humanFootprint.daily_operation_kg_co2 = .fin 15 ∧
    humanFootprint.lifetime_total_kg_co2 = .fin 400000 ∧
    humanFootprint.confidence_score = .fin (99 / 100) ∧
    humanFootprint.sources =
      [{ name := .str "Global standardized human values", reliability_score := .fin (99 / 100),
         year_published := .str "2024", url := none, doi := .undef }] ∧
    humanFootprint.trees_required = .fin 455 := by
  obtain ⟨mRaw, hm⟩ := getProp_ok_of_not_nullish fp "manufacturing_kg_co2" hfp
  obtain ⟨dRaw, hd⟩ := getProp_ok_of_not_nullish fp "daily_operation_kg_co2" hfp
  obtain ⟨lRaw, hl⟩ := getProp_ok_of_ok md "data_source" "assumed_lifespan_years" ds hds
  refine ⟨?_, rfl, rfl, rfl, rfl, rfl, by rfl⟩
  unfold validateCarbonFootprint
  simp only [hm, hd, hl, hds, hgr, bind_ok_eq]
  rw [if_pos hhuman]
  rfl

theorem C2_witness :
    validateCarbonFootprint "2025"
        (.obj [("manufacturing_kg_co2", .num (.fin 12345))]) c2md = .ok humanFootprint ∧
    humanFootprint.trees_required = .fin 455 :=
  ⟨(C2_human_record "2025" (.obj [("manufacturing_kg_co2", .num (.fin 12345))]) c2md
      _ _ rfl rfl rfl rfl).1,
    (C2_human_record "2025" (.obj [("manufacturing_kg_co2", .num (.fin 12345))]) c2md
      _ _ rfl rfl rfl rfl).2.2.2.2.2.2⟩

/-! ### Claim C3 -/

/-- In every validated footprint, `trees_required` is recomputed from the
footprint's own `lifetime_total_kg_co2`. -/
theorem validateCarbonFootprint_trees (cy : String) (fp md : Js) (r : CarbonFootprint)
    (h : validateCarbonFootprint cy fp md = .ok r) :
    r.trees_required = calculateTreesRequired r.lifetime_total_kg_co2 := by
  rcases validateCarbonFootprint_ok_elim cy fp md r h with
    ⟨_, _, _, _, _, _, _, _, _, _, hbranch⟩
  rcases hbranch with ⟨_, rfl⟩ | ⟨_, _, _, _, _, _, _, _, _, rfl⟩
  · rfl
  · rfl

theorem C3_counterexample :
    processResult "T" "2025" c3Input = .ok c3Output ∧
    (c3Output.objects.map fun o => o.carbon_footprint.trees_required) = [JsNum.nan] ∧
    jsNumIsPosInt JsNum.nan = false ∧
    jsLe (JsNum.fin 1) JsNum.nan = false :=
  ⟨rfl, rfl, rfl, rfl⟩

/-- C3 (amended): on every finite (real) input the trees computation returns
1 for `x <= 0` and `max 1 ⌈x / (TREE_CO2_ABSORPTION_PER_YEAR *
AVERAGE_TREE_LIFESPAN)⌉` otherwise; consequently every normalized object
whose `lifetime_total_kg_co2` is a finite number has an integer
`trees_required >= 1` — but a raw field coercing to Infinity can make the
lifetime total infinite or NaN, and then `trees_required` is not an
integer. -/
theorem C3_trees_amended :
    (∀ q : ℚ, q ≤ 0 → calculateTreesRequired (.fin q) = .fin 1) ∧
    (∀ q : ℚ, 0 < q →
      calculateTreesRequired (.fin q) =
        .fin (max 1 ((⌈q / (TREE_CO2_ABSORPTION_PER_YEAR * AVERAGE_TREE_LIFESPAN)⌉ : ℤ) : ℚ))) ∧
    (∀ now cy parsed r, processResult now cy parsed = .ok r →
      ∀ o ∈ r.objects, ∀ q : ℚ, o.carbon_footprint.lifetime_total_kg_co2 = .fin q →
        jsNumIsPosInt o.carbon_footprint.trees_required = true) := by
  have h880 : (TREE_CO2_ABSORPTION_PER_YEAR * AVERAGE_TREE_LIFESPAN : ℚ) = 880 := by
    norm_num [TREE_CO2_ABSORPTION_PER_YEAR, AVERAGE_TREE_LIFESPAN]
  have hbase : ∀ q : ℚ, 0 < q →
      calculateTreesRequired (.fin q) =
        .fin (max 1 ((⌈q / (TREE_CO2_ABSORPTION_PER_YEAR * AVERAGE_TREE_LIFESPAN)⌉ : ℤ) : ℚ)) := by
    intro q hq
    have hle : jsLe (.fin q) (.fin 0) = false := by
      simp [jsLe]
      exact hq
    have hne : (880 : ℚ) ≠ 0 := by norm_num
    simp [calculateTreesRequired, hle, h880, jsDiv, hne, jsCeil, jsMax, ratCeil_eq_ceil]
  refine ⟨?_, hbase, ?_⟩
  · intro q hq
    have hle : jsLe (.fin q) (.fin 0) = true := by simp [jsLe, hq]
    simp [calculateTreesRequired, hle]
  · intro now cy parsed r hok o ho q hq
    rcases processResult_ok_elim now cy parsed r hok with
      ⟨_, _, objects, _, _, _, _, _, _, _, _, _, hmap, _, _, _, _, _, _, _, hr⟩
    subst hr
    rcases mapExcept_ok_mem _ _ _ hmap o ho with ⟨obj, _, hobj⟩
    rcases processObject_ok_elim cy obj o hobj with ⟨nm, cf, md, fp, vmd, _, _, _, hcf, _, hro⟩
    subst hro
    have htr := validateCarbonFootprint_trees cy cf md fp hcf
    simp only at htr hq ⊢
    rw [htr, hq]
    by_cases hq0 : q ≤ 0
    · have h1 : jsLe (.fin q) (.fin 0) = true := by simp [jsLe, hq0]
      simp [calculateTreesRequired, h1, jsNumIsPosInt]
    · rw [hbase q (not_le.mp hq0)]
      rcases le_total ((⌈q / (TREE_CO2_ABSORPTION_PER_YEAR * AVERAGE_TREE_LIFESPAN)⌉ : ℤ) : ℚ) 1
        with hc | hc
      · rw [max_eq_left hc]
        simp [jsNumIsPosInt]
      · rw [max_eq_right hc]
        have hc2 : (1 : ℤ) ≤ ⌈q / (TREE_CO2_ABSORPTION_PER_YEAR * AVERAGE_TREE_LIFESPAN)⌉ := by
          exact_mod_cast hc
        simp [jsNumIsPosInt, Rat.den_intCast, Rat.num_intCast, hc2]

theorem C3_witness :
    calculateTreesRequired (.fin (-3)) = .fin 1 ∧
    calculateTreesRequired (.fin 1000) =
      .fin (max 1 ((⌈(1000 : ℚ) / (TREE_CO2_ABSORPTION_PER_YEAR * AVERAGE_TREE_LIFESPAN)⌉ : ℤ) : ℚ)) ∧
    jsNumIsPosInt c3FinObj.carbon_footprint.trees_required = true :=
  ⟨C3_trees_amended.1 (-3) (by norm_num),
    C3_trees_amended.2.1 1000 (by norm_num),
    C3_trees_amended.2.2 "T" "2025" c3FinInput c3FinOutput rfl c3FinObj
      (by rw [show c3FinOutput.objects = [c3FinObj] from rfl]; exact List.mem_singleton.mpr rfl)
      5 rfl⟩

/-! ### Claim C4 -/

theorem strData_append (a b : String) : (a ++ b).data = a.data ++ b.data := by
  cases a
  cases b
  rfl

@[simp]
theorem obind_some (a : α) (f : α → Option β) : (some a).bind f = f a := rfl

@[simp]
theorem omap_some (f : α → β) (a : α) : (some a).map f = some (f a) := rfl

theorem dropUntil_append_of_not_mem (c : Char) (p rest : List Char) (h : c ∉ p) :
    dropUntil c (p ++ rest) = dropUntil c rest := by
  induction p with
  | nil => rfl
  | cons x xs ih =>
    rw [List.cons_append, dropUntil,
      if_neg (fun he : x = c => h (he ▸ List.mem_cons_self x xs))]
    exact ih fun hm => h (List.mem_cons_of_mem x hm)

theorem dropUntil_cons_self (c : Char) (r : List Char) : dropUntil c (c :: r) = some (c :: r) := by
  rw [dropUntil, if_pos rfl]

/-- The brace-extraction regex on prose-wrapped text recovers exactly the
braced body, provided the leading prose has no opening brace and the
trailing prose no closing brace. -/
theorem braceExtract_wrap (p b s : String)
    (hp : braceOpen ∉ p.data) (hs : braceClose ∉ s.data)
    (hb1 : ∃ t, b.data = braceOpen :: t) (hb2 : ∃ t, b.data.reverse = braceClose :: t) :
    braceExtract (p ++ b ++ s) = some b := by
  rcases hb1 with ⟨t, hbt⟩
  rcases hb2 with ⟨t2, hbt2⟩
  have h1 : (p ++ b ++ s).data = p.data ++ (braceOpen :: (t ++ s.data)) := by
    rw [strData_append, strData_append, List.append_assoc, hbt, List.cons_append]
  have h2 : (braceOpen :: (t ++ s.data)).reverse = s.data.reverse ++ (braceClose :: t2) := by
    rw [show braceOpen :: (t ++ s.data) = (braceOpen :: t) ++ s.data from
        (List.cons_append _ _ _).symm,
      List.reverse_append, ← hbt, hbt2]
  unfold braceExtract
  rw [h1, dropUntil_append_of_not_mem _ _ _ hp, dropUntil_cons_self, obind_some, h2,
    dropUntil_append_of_not_mem _ _ _ (by simpa using hs), dropUntil_cons_self, omap_some,
    ← hbt2, List.reverse_reverse]

/-- A string that itself starts with an opening brace and ends with a
closing one brace-extracts to itself. -/
theorem braceExtract_self (b : String)
    (hb1 : ∃ t, b.data = braceOpen :: t) (hb2 : ∃ t, b.data.reverse = braceClose :: t) :
    braceExtract b = some b := by
  rcases hb1 with ⟨t, hbt⟩
  rcases hb2 with ⟨t2, hbt2⟩
  unfold braceExtract
  rw [hbt, dropUntil_cons_self, obind_some, ← hbt, hbt2, dropUntil_cons_self, omap_some,
    ← hbt2, List.reverse_reverse]

/-- C4: extraction is exactly two attempts — a direct parse, then a parse of
the first-brace-to-last-brace substring — and fails (producing no result)
when neither succeeds or no such substring exists; consequently a JSON body
wrapped in brace-free prose is analyzed exactly like the clean body. -/
theorem C4_extraction :
    (∀ now cy t v, parseJson t = some v →
      analyzeImage now cy t = wrapOuter (processResult now cy v)) ∧
    (∀ now cy t sub v, parseJson t = none → braceExtract t = some sub →
      parseJson sub = some v →
      analyzeImage now cy t = wrapOuter (processResult now cy v)) ∧
    (∀ now cy t, parseJson t = none →
      (braceExtract t = none ∨ ∃ sub, braceExtract t = some sub ∧ parseJson sub = none) →
      ∃ e, analyzeImage now cy t = .error e) ∧
    (∀ now cy p b s, braceOpen ∉ p.data → braceClose ∉ s.data →
      (∃ t, b.data = braceOpen :: t) → (∃ t, b.data.reverse = braceClose :: t) →
      parseJson (p ++ b ++ s) = none →
      analyzeImage now cy (p ++ b ++ s) = analyzeImage now cy b) := by
  refine ⟨?_, ?_, ?_, ?_⟩
  · intro now cy t v h
    simp only [analyzeImage, h]
  · intro now cy t sub v h1 h2 h3
    simp only [analyzeImage, h1, h2, h3]
  · intro now cy t h1 h2
    rcases h2 with h2 | ⟨sub, h2, h3⟩
    · simp only [analyzeImage, h1, h2]
      exact ⟨_, rfl⟩
    · simp only [analyzeImage, h1, h2, h3]
      exact ⟨_, rfl⟩
  · intro now cy p b s hp hs hb1 hb2 hfull
    have hbe := braceExtract_wrap p b s hp hs hb1 hb2
    have hbs := braceExtract_self b hb1 hb2
    rcases hb : parseJson b with _ | v <;>
      simp only [analyzeImage, hfull, hbe, hbs, hb]

theorem C4_witness :
    analyzeImage "T" "2025" c4Clean = wrapOuter (processResult "T" "2025" c4Parsed) ∧
    analyzeImage "T" "2025" ("Here is the result: " ++ c4Clean ++ " Thanks!") =
      wrapOuter (processResult "T" "2025" c4Parsed) ∧
    analyzeImage "T" "2025" ("Here is the result: " ++ c4Clean ++ " Thanks!") =
      analyzeImage "T" "2025" c4Clean ∧
    (∃ e, analyzeImage "T" "2025" "no json at all" = .error e) :=
  ⟨C4_extraction.1 "T" "2025" c4Clean c4Parsed rfl,
    C4_extraction.2.1 "T" "2025" ("Here is the result: " ++ c4Clean ++ " Thanks!")
      c4Clean c4Parsed rfl rfl rfl,
    C4_extraction.2.2.2 "T" "2025" "Here is the result: " c4Clean " Thanks!"
      (by decide) (by decide) ⟨_, rfl⟩ ⟨_, rfl⟩ rfl,
    C4_extraction.2.2.1 "T" "2025" "no json at all" rfl (Or.inl rfl)⟩

/-! ### Claim C5 -/

theorem validateSource_score (cy : String) (s : Js) (r : Source)
    (h : validateSource cy s = .ok r) : scoreOk r.reliability_score := by
  rcases validateSource_ok_elim cy s r h with ⟨n, relv, y, u, d, _, _, _, _, _, rfl⟩
  rcases validateNumber01 relv with ⟨q, hq, h0, h1⟩
  exact ⟨q, hq, h0, h1⟩

theorem validateCarbonFootprint_scores (cy : String) (fp md : Js) (r : CarbonFootprint)
    (h : validateCarbonFootprint cy fp md = .ok r) :
    scoreOk r.confidence_score ∧ ∀ s ∈ r.sources, scoreOk s.reliability_score := by
  rcases validateCarbonFootprint_ok_elim cy fp md r h with
    ⟨_, _, _, _, _, _, _, _, _, _, hbranch⟩
  rcases hbranch with ⟨_, rfl⟩ | ⟨_, conf, _, _, srcs, _, _, _, hmap, rfl⟩
  · refine ⟨⟨99 / 100, rfl, by norm_num, by norm_num⟩, ?_⟩
    intro s hs
    rcases List.mem_singleton.mp hs with rfl
    exact ⟨99 / 100, rfl, by norm_num, by norm_num⟩
  · constructor
    · rcases validateNumber01 conf with ⟨q, hq, h0, h1⟩
      exact ⟨q, hq, h0, h1⟩
    · intro s hs
      rcases mapExcept_ok_mem _ _ _ hmap s hs with ⟨x, _, hx⟩
      exact validateSource_score cy x s hx

theorem validateMetadata_score (cy : String) (md : Js) (m2 : ObjectMetadata)
    (h : validateMetadata cy md = .ok m2) :
    ∀ ms, m2.methodology_source = some ms → scoreOk ms.reliability_score := by
  rcases validateMetadata_ok_elim cy md m2 h with ⟨l, u, d, g, m, ms, _, _, _, _, _, hms, rfl⟩
  intro ms2 hms2
  rcases hms with ⟨_, s2, hvs, rfl⟩ | ⟨_, rfl⟩
  · exact (Option.some.inj hms2) ▸ validateSource_score cy m s2 hvs
  · cases hms2

/-- C5: every confidence score and reliability score appearing anywhere in a
successfully normalized result lies in `[0, 1]`; moreover the `[0, 1]` clamp
maps a NaN-coercing value to 0 and out-of-range values to the nearer
bound. -/
theorem C5_scores_bounded :
    (∀ now cy parsed r, processResult now cy parsed = .ok r →
      (∀ o ∈ r.objects, scoreOk o.carbon_footprint.confidence_score ∧
        (∀ s ∈ o.carbon_footprint.sources, scoreOk s.reliability_score) ∧
        (∀ ms, o.metadata.methodology_source = some ms → scoreOk ms.reliability_score)) ∧
      (∀ s ∈ r.analysis_metadata.data_sources, scoreOk s.reliability_score)) ∧
    (∀ v, toNumber v = .nan → validateNumber v 0 (.fin 1) = .fin 0) ∧
    (∀ q : ℚ, q < 0 → validateNumber (.num (.fin q)) 0 (.fin 1) = .fin 0) ∧
    (∀ q : ℚ, 1 < q → validateNumber (.num (.fin q)) 0 (.fin 1) = .fin 1) := by
  refine ⟨?_, ?_, ?_, ?_⟩
  · intro now cy parsed r hok
    rcases processResult_ok_elim now cy parsed r hok with
      ⟨_, _, objects, _, _, _, _, _, _, ds, _, _, hmap, _, _, _, _, _, _, hds, hr⟩
    subst hr
    constructor
    · intro o ho
      rcases mapExcept_ok_mem _ _ _ hmap o ho with ⟨obj, _, hobj⟩
      rcases processObject_ok_elim cy obj o hobj with ⟨nm, cf, md, fp, vmd, _, _, _, hcf, hvmd, rfl⟩
      exact ⟨(validateCarbonFootprint_scores cy cf md fp hcf).1,
        (validateCarbonFootprint_scores cy cf md fp hcf).2,
        validateMetadata_score cy md vmd hvmd⟩
    · intro s hs
      rcases mapExcept_ok_mem _ _ _ hds s hs with ⟨x, _, hx⟩
      exact validateSource_score cy x s hx
  · intro v h
    simp [validateNumber, h]
  · intro q h
    have hne : toNumber (.num (.fin q)) ≠ JsNum.nan := by simp [toNumber]
    simp [validateNumber, toNumber, jsMin, jsMax, max_eq_left (le_of_lt h),
      min_eq_right (zero_le_one.trans_eq rfl)]
  · intro q h
    have h0 : (0 : ℚ) ≤ q := le_of_lt (lt_trans zero_lt_one h)
    simp [validateNumber, toNumber, jsMin, jsMax, max_eq_right h0, min_eq_left (le_of_lt h)]

theorem C5_witness :
    processResult "T" "2025" c5Input = .ok c5Output ∧
    scoreOk c5Obj.carbon_footprint.confidence_score ∧
    validateNumber (.str "not-a-number") 0 (.fin 1) = .fin 0 :=
  ⟨rfl,
    (((C5_scores_bounded.1 "T" "2025" c5Input c5Output rfl).1 c5Obj
      (by rw [show c5Output.objects = [c5Obj] from rfl]; exact List.mem_singleton.mpr rfl))).1,
    C5_scores_bounded.2.1 (.str "not-a-number") rfl⟩

/-! ### Claim C6 -/

/-- C6: an object whose `carbon_footprint` sub-object is entirely absent
makes the whole normalization fail with an error and no result, while a
present-but-empty footprint object is repaired by per-field defaulting. -/
theorem C6_missing_footprint :
    (∀ now cy parsed objsRaw objs obj,
      getProp parsed "objects" = .ok objsRaw → asArray objsRaw = .ok objs → obj ∈ objs →
      getProp obj "carbon_footprint" = .ok .undef →
      ∃ e, processResult now cy parsed = .error e) ∧
    (processResult "T" "2025" c6Present = .ok c6PresentOutput ∧
      (c6PresentOutput.objects.map fun o => o.carbon_footprint.manufacturing_kg_co2) =
        [.fin 0] ∧
      (c6PresentOutput.objects.map fun o => o.metadata.geographical_region) =
        [.str "Global"]) := by
  refine ⟨?_, rfl, rfl, rfl⟩
  intro now cy parsed objsRaw objs obj h1 h2 hmem hcf
  obtain ⟨nm, hnm⟩ := getProp_ok_of_ok obj "carbon_footprint" "name" _ hcf
  obtain ⟨md, hmd⟩ := getProp_ok_of_ok obj "carbon_footprint" "metadata" _ hcf
  have hpo : processObject cy obj =
      .error "TypeError: cannot read properties of undefined, reading manufacturing_kg_co2" := by
    simp only [processObject, hnm, hcf, hmd, bind_ok_eq]
    rfl
  rcases mapExcept_error_of_mem (processObject cy) objs obj _ hmem hpo with ⟨e2, hmap⟩
  refine ⟨e2, ?_⟩
  simp only [processResult, h1, bind_ok_eq, h2, hmap, bind_error_eq]

theorem C6_witness : exceptIsOk (processResult "T" "2025" c6Absent) = false := by
  rcases C6_missing_footprint.1 "T" "2025" c6Absent _ _
      (.obj [("name", .str "Widget"), ("metadata", .obj [])]) rfl rfl
      (List.mem_singleton.mpr rfl) rfl with ⟨e, he⟩
  rw [he]
  rfl

/-! ### Claim C7 -/

/-- C7: in every returned result, `number_of_objects_detected` equals the
length of the objects sequence, whatever count the raw input supplied. -/
theorem C7_object_count :
    (∀ now cy parsed r, processResult now cy parsed = .ok r →
      r.analysis_metadata.number_of_objects_detected = r.objects.length) ∧
    (processResult "T" "2025" c7Input = .ok c7Output ∧
      c7Output.analysis_metadata.number_of_objects_detected = 1 ∧
      c7Output.objects.length = 1) := by
  refine ⟨?_, rfl, rfl, rfl⟩
  intro now cy parsed r hok
  rcases processResult_ok_elim now cy parsed r hok with
    ⟨_, objsList, objects, _, _, _, _, _, _, _, _, _, hmap, _, _, _, _, _, _, _, hr⟩
  subst hr
  exact (mapExcept_ok_length _ _ _ hmap).symm

theorem C7_witness :
    c7Output.analysis_metadata.number_of_objects_detected = c7Output.objects.length :=
  C7_object_count.1 "T" "2025" c7Input c7Output rfl

/-! ### Claim C10 -/

/-- C10: a payload with no `analysis_metadata` object at all makes the whole
call fail with an error and no result — even though, when the object is
present, every scalar field inside it is individually defaulted. -/
theorem C10_metadata_required :
    (∀ now cy parsed, getProp parsed "analysis_metadata" = .ok .undef →
      ∃ e, processResult now cy parsed = .error e) ∧
    processResult "T" "2025" (.obj [("objects", .arr []), ("analysis_metadata", .obj [])]) =
      .ok { objects := []
            analysis_metadata :=
              { timestamp := "T"
                image_quality := .str "standard"
                number_of_objects_detected := 0
                default_region := .str "Global"
                model_version := .str "1.0"
                data_sources := [] } } := by
  refine ⟨?_, rfl⟩
  intro now cy parsed ham
  obtain ⟨objsRaw, h1⟩ := getProp_ok_of_ok parsed "analysis_metadata" "objects" _ ham
  rcases h2 : asArray objsRaw with e | objsList
  · exact ⟨e, by simp only [processResult, h1, bind_ok_eq, h2, bind_error_eq]⟩
  rcases h3 : mapExcept (processObject cy) objsList with e | objects
  · exact ⟨e, by simp only [processResult, h1, bind_ok_eq, h2, h3, bind_error_eq]⟩
  refine ⟨"TypeError: cannot read properties of undefined, reading image_quality", ?_⟩
  simp only [processResult, h1, bind_ok_eq, h2, h3, ham]
  rfl

theorem C10_witness :
    exceptIsOk (processResult "T" "2025" (Js.obj [("objects", Js.arr [])])) = false := by
  rcases C10_metadata_required.1 "T" "2025" (Js.obj [("objects", Js.arr [])]) rfl with ⟨e, he⟩
  rw [he]
  rfl

/-! ### Claim C9 -/

theorem validateUrl_invalid (us : String) (h : isValidUrl us = false) :
    validateUrl (.str us) = none := by
  unfold validateUrl
  by_cases ht : truthy (.str us) = true
  · simp [ht, jsToString, h]
  · simp [Bool.not_eq_true _ ▸ ht]

theorem validateUrl_placeholder (us : String) (h : strIncludes us "example.com" = true) :
    validateUrl (.str us) = none := by
  unfold validateUrl
  by_cases ht : truthy (.str us) = true
  · by_cases hv : isValidUrl us = true
    · simp [ht, jsToString, hv, h]
    · simp [ht, jsToString, Bool.not_eq_true _ ▸ hv]
  · simp [Bool.not_eq_true _ ▸ ht]

/-- C9 (amended): source validation never rejects an entry whose five
properties are readable — name/year are defaulted when missing and the
score is clamped — and a string `url` that fails URL parsing or contains
the placeholder domain is dropped, so no returned source carries a
non-parseable or placeholder STRING url.  However an array url whose
comma-joined string form parses as a URL is kept whenever the placeholder
domain is not an exact element of the array, since
`Array.prototype.includes` tests element equality, not substrings. -/
theorem C9_url_validation (cy : String) (s : Js) (n relv y u d : Js)
    (hn : getProp s "name" = .ok n)
    (hr : getProp s "reliability_score" = .ok relv)
    (hy : getProp s "year_published" = .ok y)
    (hu : getProp s "url" = .ok u)
    (hd : getProp s "doi" = .ok d) :
    validateSource cy s = .ok (mkValidatedSource cy n relv y u d) ∧
    (∀ us, (mkValidatedSource cy n relv y u d).url = some (.str us) →
      isValidUrl us = true ∧ strIncludes us "example.com" = false) ∧
    (n = .undef → (mkValidatedSource cy n relv y u d).name = .str "Unknown Source") ∧
    (y = .undef → (mkValidatedSource cy n relv y u d).year_published = .str cy) ∧
    scoreOk (mkValidatedSource cy n relv y u d).reliability_score ∧
    (∀ us, u = .str us → isValidUrl us = false →
      (mkValidatedSource cy n relv y u d).url = none) ∧
    (∀ us, u = .str us → strIncludes us "example.com" = true →
      (mkValidatedSource cy n relv y u d).url = none) ∧
    (∀ xs, u = .arr xs → isValidUrl (jsToString (.arr xs)) = true →
      xs.any (fun x => strictEqStr x "example.com") = false →
      (mkValidatedSource cy n relv y u d).url = some (.arr xs)) := by
  refine ⟨?_, ?_, ?_, ?_, ?_, ?_, ?_, ?_⟩
  · simp only [validateSource, hn, hr, hy, hu, hd, bind_ok_eq, pure_eq_ok]
  · intro us hus
    rcases validateUrl_some_elim u (.str us) hus with
      ⟨s2, _, hs2, _, hv, hi⟩ | ⟨xs, _, hx, _, _⟩
    · cases hs2
      exact ⟨hv, hi⟩
    · cases hx
  · intro hn2
    subst hn2
    rfl
  · intro hy2
    subst hy2
    rfl
  · rcases validateNumber01 relv with ⟨q, hq, h0, h1⟩
    exact ⟨q, hq, h0, h1⟩
  · intro us hu2 hval
    subst hu2
    show validateUrl (.str us) = none
    exact validateUrl_invalid us hval
  · intro us hu2 hinc
    subst hu2
    show validateUrl (.str us) = none
    exact validateUrl_placeholder us hinc
  · intro xs hu2 hval hm
    subst hu2
    show validateUrl (.arr xs) = some (.arr xs)
    have hall : ∀ x ∈ xs, strictEqStr x "example.com" = false := by simpa using hm
    unfold validateUrl
    simp [truthy, jsToString] at hval
    simp [truthy, jsToString, hval]
    exact hall

/-- The original claim is false on the code: a source whose `url` is the
array `["http://example.com"]` is returned with that url kept, although its
string form is a syntactically valid URL on the placeholder domain. -/
theorem C9_counterexample :
    validateSource "2025" c9BadSrc =
      .ok (mkValidatedSource "2025" (.undef) (.undef) (.undef) c9ArrUrl (.undef)) ∧
    (mkValidatedSource "2025" (.undef) (.undef) (.undef) c9ArrUrl (.undef)).url =
      some c9ArrUrl ∧
    jsToString c9ArrUrl = "http://example.com" ∧
    isValidUrl (jsToString c9ArrUrl) = true ∧
    strIncludes (jsToString c9ArrUrl) "example.com" = true :=
  ⟨rfl, rfl, rfl, rfl, rfl⟩

theorem C9_witness :
    validateSource "2025" c9src =
      .ok (mkValidatedSource "2025" .undef (.num (.fin 2)) .undef
        (.str "https://www.example.com/data") .undef) ∧
    (mkValidatedSource "2025" .undef (.num (.fin 2)) .undef
      (.str "https://www.example.com/data") .undef).url = none ∧
    (mkValidatedSource "2025" .undef (.num (.fin 2)) .undef
      (.str "https://www.example.com/data") .undef).name = .str "Unknown Source" :=
  ⟨(C9_url_validation "2025" c9src _ _ _ _ _ rfl rfl rfl rfl rfl).1,
    (C9_url_validation "2025" c9src _ _ _ _ _ rfl rfl rfl rfl rfl).2.2.2.2.2.2.1
      "https://www.example.com/data" rfl rfl,
    (C9_url_validation "2025" c9src _ _ _ _ _ rfl rfl rfl rfl rfl).2.2.1 rfl⟩

/-! ### Claim C8 -/

theorem getProp_cfToJs_man (f : CarbonFootprint) :
    getProp f.toJs "manufacturing_kg_co2" = .ok (.num f.manufacturing_kg_co2) := rfl

theorem getProp_cfToJs_daily (f : CarbonFootprint) :
    getProp f.toJs "daily_operation_kg_co2" = .ok (.num f.daily_operation_kg_co2) := rfl

theorem getProp_cfToJs_conf (f : CarbonFootprint) :
    getProp f.toJs "confidence_score" = .ok (.num f.confidence_score) := rfl

theorem getProp_cfToJs_sources (f : CarbonFootprint) :
    getProp f.toJs "sources" = .ok (.arr (f.sources.map Source.toJs)) := rfl

theorem getProp_mdToJs_life (m : ObjectMetadata) :
    getProp m.toJs "assumed_lifespan_years" = .ok (.num m.assumed_lifespan_years) := rfl

theorem getProp_mdToJs_ds (m : ObjectMetadata) :
    getProp m.toJs "data_source" = .ok m.data_source := rfl

theorem getProp_mdToJs_region (m : ObjectMetadata) :
    getProp m.toJs "geographical_region" = .ok m.geographical_region := rfl

theorem strictEqStr_true_elim (v : Js) (tag : String) (h : strictEqStr v tag = true) :
    v = .str tag := by
  cases v <;> simp [strictEqStr] at h
  case str t => rw [h]

theorem jsOr_tag_true (v : Js) (dflt tag : String) (h : strictEqStr v tag = true)
    (htag : tag ≠ "") : strictEqStr (jsOr v (.str dflt)) tag = true := by
  rw [strictEqStr_true_elim v tag h]
  simp [jsOr, truthy, htag, strictEqStr]

theorem jsOr_tag_false (v : Js) (dflt tag : String) (h : strictEqStr v tag = false)
    (hd : dflt ≠ tag) : strictEqStr (jsOr v (.str dflt)) tag = false := by
  unfold jsOr
  by_cases ht : truthy v = true
  · simp [ht, h]
  · simp [ht, strictEqStr, hd]

theorem validateSource_idem (cy : String) (s : Js) (r2 : Source)
    (h : validateSource cy s = .ok r2) : validateSource cy (Source.toJs r2) = .ok r2 := by
  rcases validateSource_ok_elim cy s r2 h with ⟨n, relv, y, u, d, _, _, _, _, _, rfl⟩
  have hrel : validateNumber (.num (validateNumber relv 0 (.fin 1))) 0 (.fin 1) =
      validateNumber relv 0 (.fin 1) := by
    rcases validateNumber01 relv with ⟨q, hq, h0, h1⟩
    rw [hq]
    exact validateNumber01_fix q h0 h1
  have hred : validateSource cy (Source.toJs (mkValidatedSource cy n relv y u d)) =
      .ok (mkValidatedSource cy (jsOr n (.str "Unknown Source"))
        (.num (validateNumber relv 0 (.fin 1))) (jsOr y (.str cy))
        (urlToJs (validateUrl u)) d) := rfl
  rw [hred]
  unfold mkValidatedSource
  rw [jsOr_idem, hrel, jsOr_idem, validateUrl_fix]

theorem validateMetadata_idem (cy : String) (md : Js) (m2 : ObjectMetadata)
    (h : validateMetadata cy md = .ok m2) : validateMetadata cy m2.toJs = .ok m2 := by
  rcases validateMetadata_ok_elim cy md m2 h with ⟨l, u, d, g, m, ms, _, _, _, _, _, hms, rfl⟩
  have hlife : validateNumber (.num (validateNumber l 1 .posInf)) 1 .posInf =
      validateNumber l 1 .posInf :=
    validateNumber_fix_nonneg 1 _ (validateNumber_nonneg l 1)
  rcases hms with ⟨_, s2, hvs, rfl⟩ | ⟨_, rfl⟩
  · have hidem := validateSource_idem cy m s2 hvs
    have hred : validateMetadata cy (ObjectMetadata.toJs (mkValidatedMetadata l u d g (some s2))) =
        Except.map some (validateSource cy (Source.toJs s2)) >>= fun msv =>
          pure (mkValidatedMetadata (Js.num (validateNumber l 1 .posInf))
            (jsOr u (.str "Standard usage patterns"))
            (jsOr d (.str "Verified environmental impact studies"))
            (jsOr g (.str "Global")) msv) := rfl
    rw [hred]
    simp only [hidem, map_ok_eq, bind_ok_eq, pure_eq_ok]
    unfold mkValidatedMetadata
    rw [hlife, jsOr_idem, jsOr_idem, jsOr_idem]
  · have hred : validateMetadata cy (ObjectMetadata.toJs (mkValidatedMetadata l u d g none)) =
        .ok (mkValidatedMetadata (Js.num (validateNumber l 1 .posInf))
          (jsOr u (.str "Standard usage patterns"))
          (jsOr d (.str "Verified environmental impact studies"))
          (jsOr g (.str "Global")) none) := rfl
    rw [hred]
    unfold mkValidatedMetadata
    rw [hlife, jsOr_idem, jsOr_idem, jsOr_idem]

theorem validateCarbonFootprint_idem (cy : String) (fp md : Js) (r : CarbonFootprint)
    (m2 : ObjectMetadata)
    (hf : validateCarbonFootprint cy fp md = .ok r)
    (hm : validateMetadata cy md = .ok m2) :
    validateCarbonFootprint cy r.toJs m2.toJs = .ok r := by
  rcases validateCarbonFootprint_ok_elim cy fp md r hf with
    ⟨mRaw, dRaw, lRaw, ds, gr, hm1, hd1, hl1, hds1, hgr1, hbranch⟩
  rcases validateMetadata_ok_elim cy md m2 hm with
    ⟨l, u, d, g, m, ms, hl2, hu2, hd2, hg2, hm2r, hms, hm2eq⟩
  obtain rfl : lRaw = l := Except.ok.inj (hl1.symm.trans hl2)
  obtain rfl : ds = d := Except.ok.inj (hds1.symm.trans hd2)
  obtain rfl : gr = g := Except.ok.inj (hgr1.symm.trans hg2)
  subst hm2eq
  rcases hbranch with ⟨hb, rfl⟩ | ⟨hb, conf, srcsRaw, srcsList, srcs, hc1, hs1, hasArr, hmap, rfl⟩
  · have hcond : (strictEqStr (jsOr ds (.str "Verified environmental impact studies"))
        humanDataSourceTag ||
        strictEqStr (jsOr gr (.str "Global")) humanRegionTag) = true := by
      have hb2 : strictEqStr ds humanDataSourceTag = true ∨
          strictEqStr gr humanRegionTag = true := by simpa using hb
      rcases hb2 with hb1 | hb1
      · simp [jsOr_tag_true ds "Verified environmental impact studies" humanDataSourceTag hb1
          (by decide)]
      · simp [jsOr_tag_true gr "Global" humanRegionTag hb1 (by decide)]
    simp only [validateCarbonFootprint, getProp_cfToJs_man, getProp_cfToJs_daily,
      getProp_mdToJs_life, getProp_mdToJs_ds, getProp_mdToJs_region, bind_ok_eq,
      mkValidatedMetadata]
    rw [if_pos hcond]
    rfl
  · have hcond : (strictEqStr (jsOr ds (.str "Verified environmental impact studies"))
        humanDataSourceTag ||
        strictEqStr (jsOr gr (.str "Global")) humanRegionTag) = false := by
      have hb2 : strictEqStr ds humanDataSourceTag = false ∧
          strictEqStr gr humanRegionTag = false := by simpa using hb
      simp [jsOr_tag_false ds "Verified environmental impact studies" humanDataSourceTag hb2.1
          (by decide),
        jsOr_tag_false gr "Global" humanRegionTag hb2.2 (by decide)]
    have hman : validateNumber (.num (validateNumber mRaw 0 .posInf)) 0 .posInf =
        validateNumber mRaw 0 .posInf :=
      validateNumber_fix_nonneg 0 _ (validateNumber_nonneg mRaw 0)
    have hdaily : validateNumber (.num (validateNumber dRaw 0 .posInf)) 0 .posInf =
        validateNumber dRaw 0 .posInf :=
      validateNumber_fix_nonneg 0 _ (validateNumber_nonneg dRaw 0)
    have hlife : validateNumber (.num (validateNumber lRaw 1 .posInf)) 1 .posInf =
        validateNumber lRaw 1 .posInf :=
      validateNumber_fix_nonneg 1 _ (validateNumber_nonneg lRaw 1)
    have hconf : validateNumber (.num (validateNumber conf 0 (.fin 1))) 0 (.fin 1) =
        validateNumber conf 0 (.fin 1) := by
      rcases validateNumber01 conf with ⟨q, hq, h0, h1⟩
      rw [hq]
      exact validateNumber01_fix q h0 h1
    have hsrcs : mapExcept (validateSource cy) (srcs.map Source.toJs) = .ok srcs := by
      apply mapExcept_of_pointwise
      intro y hy
      rcases mapExcept_ok_mem _ _ _ hmap y hy with ⟨x, _, hx⟩
      exact validateSource_idem cy x y hx
    simp only [validateCarbonFootprint, getProp_cfToJs_man, getProp_cfToJs_daily,
      getProp_cfToJs_conf, getProp_cfToJs_sources, getProp_mdToJs_life, getProp_mdToJs_ds,
      getProp_mdToJs_region, bind_ok_eq, mkValidatedMetadata, mkValidatedFootprint]
    rw [if_neg (by rw [hcond]; exact Bool.false_ne_true)]
    have harr : jsOr (.arr (srcs.map Source.toJs)) (.arr []) = .arr (srcs.map Source.toJs) := rfl
    have hAsArr : asArray (.arr (srcs.map Source.toJs)) = .ok (srcs.map Source.toJs) := rfl
    simp only [harr, hAsArr, bind_ok_eq, hsrcs, pure_eq_ok]
    rw [hman, hdaily, hlife, hconf]

/-- C8: feeding the validated footprint, metadata and source records of an
already-normalized object back through the same validation functions
returns exactly the same records. -/
theorem C8_idempotent (cy : String) (fp md : Js) (r : CarbonFootprint) (m2 : ObjectMetadata)
    (hf : validateCarbonFootprint cy fp md = .ok r)
    (hm : validateMetadata cy md = .ok m2) :
    validateCarbonFootprint cy r.toJs m2.toJs = .ok r ∧
    validateMetadata cy m2.toJs = .ok m2 ∧
    (∀ s r2, validateSource cy s = .ok r2 → validateSource cy r2.toJs = .ok r2) :=
  ⟨validateCarbonFootprint_idem cy fp md r m2 hf hm,
    validateMetadata_idem cy md m2 hm,
    fun s r2 h => validateSource_idem cy s r2 h⟩

theorem C8_witness :
    validateCarbonFootprint "2025" c8fp c8md = .ok c8r ∧
    validateMetadata "2025" c8md = .ok c8m2 ∧
    validateCarbonFootprint "2025" c8r.toJs c8m2.toJs = .ok c8r ∧
    validateMetadata "2025" c8m2.toJs = .ok c8m2 :=
  ⟨rfl, rfl,
    (C8_idempotent "2025" c8fp c8md c8r c8m2 rfl rfl).1,
    (C8_idempotent "2025" c8fp c8md c8r c8m2 rfl rfl).2.1⟩

end Gemini
